import Mathlib

/-!
Verification of the SES-forwarder email parsing and forwarding core.

This file gives a shallow embedding, in Lean, of the TypeScript functions
`decodeQuotedPrintable`, `parseS3Email`, `processPart`,
`formatRawForwardedEmail` (src/utils/emailUtils.ts) and
`findForwardingDestination` (src/utils/mappingUtils.ts), together with
theorems settling the specification claims about them.

Strings are modelled as Lean `String` / `List Char` (the repository only
manipulates the raw bytes as JavaScript strings).  JavaScript regular
expression operations are modelled by explicit scanning functions that
reproduce the left-to-right, first-match behaviour of the concrete regexes
used by the source on the inputs the source is designed for.
Nondeterministic inputs of the environment (the value of `Math.random`,
the current time, the `Date` parser of the JavaScript runtime) are passed
as explicit parameters.
-/

namespace SESFwd

/-! ## Basic character helpers (JavaScript semantics, ASCII scope) -/

/-- Characters treated as whitespace by JavaScript `\s`, `trim()` and
`String.prototype.trim` for the ASCII range. -/
def isJsWhitespace (c : Char) : Bool :=
  c = ' ' || c = '\t' || c = '\n' || c = '\r' || c = '\x0b' || c = '\x0c'

/-- JavaScript `String.prototype.trim` (ASCII whitespace). -/
def jsTrimL (l : List Char) : List Char :=
  (l.dropWhile isJsWhitespace).reverse.dropWhile isJsWhitespace |>.reverse

def jsTrim (s : String) : String := ⟨jsTrimL s.data⟩

/-- ASCII lower-casing, as done by `String.prototype.toLowerCase` on ASCII. -/
def asciiLower (c : Char) : Char :=
  if 'A' ≤ c ∧ c ≤ 'Z' then Char.ofNat (c.toNat + 32) else c

def lowerL (l : List Char) : List Char := l.map asciiLower

def jsLower (s : String) : String := ⟨lowerL s.data⟩

/-- Case-insensitive character comparison (used to model the `i` regex flag). -/
def ciEq (a b : Char) : Bool := asciiLower a = asciiLower b

/-! ## Quoted-printable decoding (`decodeQuotedPrintable`)

The source decodes in two sequential passes:
`content.replace(/=([0-9A-F]{2})/g, ...)` followed by
`.replace(/=\r\n/g, '').replace(/=\n/g, '')`. -/

/-- Character class `[0-9A-F]` of the source regex: upper-case hex digits only. -/
def isUpperHexDigit (c : Char) : Bool :=
  ('0' ≤ c && c ≤ '9') || ('A' ≤ c && c ≤ 'F')

/-- Character class `[0-9a-fA-F]`: hex digits of either case (what the
specification's wording "two hex digits" denotes). -/
def isAnyHexDigit (c : Char) : Bool :=
  ('0' ≤ c && c ≤ '9') || ('A' ≤ c && c ≤ 'F') || ('a' ≤ c && c ≤ 'f')

/-- Value of a hex digit (`parseInt(_, 16)` on a single digit). -/
def hexDigitVal (c : Char) : Nat :=
  if '0' ≤ c ∧ c ≤ '9' then c.toNat - '0'.toNat
  else if 'A' ≤ c ∧ c ≤ 'F' then c.toNat - 'A'.toNat + 10
  else if 'a' ≤ c ∧ c ≤ 'f' then c.toNat - 'a'.toNat + 10
  else 0

/-- `String.fromCharCode(parseInt(cc, 16))` for a two-digit hex escape. -/
def hexPairChar (c1 c2 : Char) : Char :=
  Char.ofNat (16 * hexDigitVal c1 + hexDigitVal c2)

/-- First pass of the source decoder: the global regex replace
`content.replace(/=([0-9A-F]{2})/g, byte)` as a left-to-right scan. -/
def qpReplaceHexUpper : List Char → List Char
  | [] => []
  | '=' :: c1 :: c2 :: rest =>
    if isUpperHexDigit c1 && isUpperHexDigit c2 then
      hexPairChar c1 c2 :: qpReplaceHexUpper rest
    else
      '=' :: qpReplaceHexUpper (c1 :: c2 :: rest)
  | c :: rest => c :: qpReplaceHexUpper rest

/-- Second pass, first replace: `.replace(/=\r\n/g, '')`. -/
def removeEqCRLF : List Char → List Char
  | '=' :: '\r' :: '\n' :: rest => removeEqCRLF rest
  | c :: rest => c :: removeEqCRLF rest
  | [] => []

/-- Second pass, second replace: `.replace(/=\n/g, '')`. -/
def removeEqLF : List Char → List Char
  | '=' :: '\n' :: rest => removeEqLF rest
  | c :: rest => c :: removeEqLF rest
  | [] => []

/-- Embedding of `decodeQuotedPrintable` (src/utils/emailUtils.ts, lines 13-23):
hex-escape replacement (upper-case class only, as in the source regex),
then removal of `=`+CRLF, then removal of `=`+LF. -/
def decodeQuotedPrintable (s : String) : String :=
  ⟨removeEqLF (removeEqCRLF (qpReplaceHexUpper s.data))⟩

/-- Modelled from the claim wording (spec section 4.3): replace `=XX`
(two hex digits, either case) with the corresponding byte and remove soft
line breaks, in a single scan over the input.  Used only as the comparison
point for claim C7. -/
def decodeQuotedPrintableClaimed (s : String) : String := ⟨go s.data⟩
where
  go : List Char → List Char
    | [] => []
    | '=' :: '\r' :: '\n' :: rest => go rest
    | '=' :: '\n' :: rest => go rest
    | '=' :: c1 :: c2 :: rest =>
      if isAnyHexDigit c1 && isAnyHexDigit c2 then
        hexPairChar c1 c2 :: go rest
      else
        '=' :: go (c1 :: c2 :: rest)
    | c :: rest => c :: go rest

/-! ## Generic string scanners (models of the JavaScript regex operations) -/

/-- Case-insensitive "is prefix" test, modelling the `i` regex flag. -/
def ciIsPrefixOf : List Char → List Char → Bool
  | [], _ => true
  | _ :: _, [] => false
  | p :: ps, c :: cs => ciEq p c && ciIsPrefixOf ps cs

/-- JavaScript `String.prototype.includes` (exact substring test). -/
def containsSub (pat : List Char) : List Char → Bool
  | [] => pat.isEmpty
  | c :: t => pat.isPrefixOf (c :: t) || containsSub pat t

/-- Split a list at every element satisfying `p`, dropping the separators
(the shape of JavaScript `String.split`). -/
def chunksBy {α : Type} (p : α → Bool) : List α → List (List α)
  | [] => [[]]
  | c :: t =>
    if p c then [] :: chunksBy p t
    else
      match chunksBy p t with
      | [] => [[c]]
      | h :: r => (c :: h) :: r

/-- Split a character list at every separator character satisfying `p`
(JavaScript `String.split` with a single-character separator). -/
def splitBy (p : Char → Bool) : List Char → List (List Char) := chunksBy p

/-- Fuel-driven worker for `splitOnStr` (structural recursion on the fuel,
so that concrete instances evaluate inside the kernel). -/
def splitOnStrGo (pat : List Char) : Nat → List Char → List (List Char)
  | 0, l => [l]
  | _ + 1, [] => [[]]
  | fuel + 1, c :: t =>
    if pat ≠ [] ∧ pat.isPrefixOf (c :: t) then
      [] :: splitOnStrGo pat fuel ((c :: t).drop pat.length)
    else
      match splitOnStrGo pat fuel t with
      | [] => [[c]]
      | hd :: r => (c :: hd) :: r

/-- JavaScript `String.prototype.split` with a (nonempty) string separator:
splits at every non-overlapping occurrence, scanning left to right. -/
def splitOnStr (pat : List Char) (l : List Char) : List (List Char) :=
  splitOnStrGo pat l.length l

/-- Matcher for the blank-line separator regex `\r?\n\r?\n` at the head of a
list: returns the number of characters the separator consumes. -/
def blankSepAt : List Char → Option Nat
  | '\r' :: '\n' :: '\r' :: '\n' :: _ => some 4
  | '\r' :: '\n' :: '\n' :: _ => some 3
  | '\n' :: '\r' :: '\n' :: _ => some 3
  | '\n' :: '\n' :: _ => some 2
  | _ => none

/-- First blank-line separator: returns the text before it and the text after
it (the separator itself is dropped).  Models the leftmost match of
`\r?\n\r?\n`. -/
def splitFirstBlank : List Char → Option (List Char × List Char)
  | [] => none
  | c :: t =>
    match blankSepAt (c :: t) with
    | some n => some ([], (c :: t).drop n)
    | none =>
      match splitFirstBlank t with
      | some (b, a) => some (c :: b, a)
      | none => none

/-- Decidable test: does the list contain a blank-line separator anywhere? -/
def hasBlankSep : List Char → Bool
  | [] => false
  | c :: t => (blankSepAt (c :: t)).isSome || hasBlankSep t

/-- Lines for the purposes of splitting header text on `/\r?\n/`
(a lone `\r` is not a separator for that regex). -/
def splitLinesCRLF : List Char → List (List Char)
  | [] => [[]]
  | '\r' :: '\n' :: t => [] :: splitLinesCRLF t
  | '\n' :: t => [] :: splitLinesCRLF t
  | c :: t =>
    match splitLinesCRLF t with
    | [] => [[c]]
    | h :: r => (c :: h) :: r

/-- Model of a first-occurrence search for `/KEY\s*([^⟨excl⟩]+)/i` where the
excluded class always contains `\r` and `\n`: scan for the key
case-insensitively; after it, greedy `\s*` then a maximal nonempty capture of
non-excluded characters; when the capture would be empty the regex engine
backtracks into the whitespace run, and failing that restarts the search at
the next position. -/
def findHeaderCapture (key : List Char) (excl : Char → Bool) : List Char → Option (List Char)
  | [] => none
  | c :: t =>
    if ciIsPrefixOf key (c :: t) then
      let after := (c :: t).drop key.length
      let ws := after.takeWhile isJsWhitespace
      let rest := after.drop ws.length
      let run := rest.takeWhile (fun x => !excl x)
      if run ≠ [] then some run
      else
        let back := (ws.reverse.takeWhile (fun x => !excl x)).reverse
        if back ≠ [] then some back else findHeaderCapture key excl t
    else findHeaderCapture key excl t

/-- Excluded class `[^;\r\n]` of the content-type captures. -/
def exclSemiNL (c : Char) : Bool := c = ';' || c = '\r' || c = '\n'

/-- Excluded class `[^\r\n]` of the transfer-encoding capture. -/
def exclNL (c : Char) : Bool := c = '\r' || c = '\n'

/-- First `boundary="X"` (case-insensitive, nonempty `X`, closing quote
required), the lazy search of `[\s\S]*?boundary="([^"]+)"`. -/
def findBoundaryQuoted : List Char → Option (List Char)
  | [] => none
  | c :: t =>
    if ciIsPrefixOf "boundary=\"".data (c :: t) then
      let after := (c :: t).drop 10
      let cap := after.takeWhile (· ≠ '"')
      if cap ≠ [] ∧ cap.length < after.length then some cap
      else findBoundaryQuoted t
    else findBoundaryQuoted t

/-- Model of the main content-type regex of `parseS3Email` (line 201):
`/Content-Type:\s*([^;\r\n]+)(?:;[\s\S]*?boundary="([^"]+)")?/i`.
Returns the raw media-type capture and, when the capture is followed
immediately by `;`, the first quoted boundary found anywhere after it. -/
def findMainContentType : List Char → Option (List Char × Option (List Char))
  | [] => none
  | c :: t =>
    if ciIsPrefixOf "content-type:".data (c :: t) then
      let after := (c :: t).drop 13
      let ws := after.takeWhile isJsWhitespace
      let rest := after.drop ws.length
      let run := rest.takeWhile (fun x => !exclSemiNL x)
      if run ≠ [] then
        let afterRun := rest.drop run.length
        let b := match afterRun with
          | ';' :: u => findBoundaryQuoted u
          | _ => none
        some (run, b)
      else
        let back := (ws.reverse.takeWhile (fun x => !exclSemiNL x)).reverse
        if back ≠ [] then
          let b := match rest with
            | ';' :: u => findBoundaryQuoted u
            | _ => none
          some (back, b)
        else findMainContentType t
    else findMainContentType t

/-- Positions (indices) in the first `win` characters of `l` where the given
pattern matches case-insensitively. -/
def ciMatchPositions (pat : List Char) (l : List Char) (win : Nat) : List Nat :=
  (List.range win).filter (fun i => ciIsPrefixOf pat (l.drop i))

/-- Model of the nested-boundary regex of `parseS3Email` (line 216):
`/Content-Type:[^\n]*boundary="([^"]+)"/i`.  The greedy `[^\n]*` makes the
engine take the last `boundary="` on the same line (as delimited by `\n`)
that is followed by a nonempty, closed quote capture; if none works the
search restarts after the current position. -/
def findNestedBoundary : List Char → Option (List Char)
  | [] => none
  | c :: t =>
    if ciIsPrefixOf "content-type:".data (c :: t) then
      let after := (c :: t).drop 13
      let win := (after.takeWhile (· ≠ '\n')).length
      let hits := (ciMatchPositions "boundary=\"".data after win).reverse
      let found := hits.findSome? (fun i =>
        let tail := after.drop (i + 10)
        let cap := tail.takeWhile (· ≠ '"')
        if cap ≠ [] ∧ cap.length < tail.length then some cap else none)
      match found with
      | some cap => some cap
      | none => findNestedBoundary t
    else findNestedBoundary t

/-- First `filename="X"` (case-insensitive, nonempty closed capture), the
regex `/filename="([^"]+)"/i`. -/
def findFilenameQuoted : List Char → Option (List Char)
  | [] => none
  | c :: t =>
    if ciIsPrefixOf "filename=\"".data (c :: t) then
      let after := (c :: t).drop 10
      let cap := after.takeWhile (· ≠ '"')
      if cap ≠ [] ∧ cap.length < after.length then some cap
      else findFilenameQuoted t
    else findFilenameQuoted t

/-- First `filename=X` with `X` a nonempty run of `[^\s;]`, the regex
`/filename=([^\s;]+)/i`. -/
def findFilenameBare : List Char → Option (List Char)
  | [] => none
  | c :: t =>
    if ciIsPrefixOf "filename=".data (c :: t) then
      let after := (c :: t).drop 9
      let cap := after.takeWhile (fun x => !isJsWhitespace x && x ≠ ';')
      if cap ≠ [] then some cap
      else findFilenameBare t
    else findFilenameBare t

/-- Result of `extractContentDisposition`. -/
structure DispositionInfo where
  filename : Option String
  isAttachment : Bool
deriving DecidableEq, Repr

/-- Embedding of `extractContentDisposition` (lines 177-198): the
`Content-Disposition` header value (regex `/Content-Disposition:([^\r\n]*)/i`)
is lower-cased and tested with `includes('attachment')`; the filename is
looked up in the whole part, quoted form first, bare form second. -/
def extractContentDisposition (part : List Char) : DispositionInfo :=
  match findCDValue part with
  | none => { filename := none, isAttachment := false }
  | some v =>
    let isAtt := containsSub "attachment".data (lowerL v)
    let fn := match findFilenameQuoted part with
      | some cap => some (⟨cap⟩ : String)
      | none =>
        match findFilenameBare part with
        | some cap => some (⟨cap⟩ : String)
        | none => none
    { filename := fn, isAttachment := isAtt }
where
  /-- First `Content-Disposition:` occurrence; capture `([^\r\n]*)` may be
  empty, so unlike the nonempty-capture searches this cannot backtrack. -/
  findCDValue : List Char → Option (List Char)
    | [] => none
    | c :: t =>
      if ciIsPrefixOf "content-disposition:".data (c :: t) then
        some (((c :: t).drop 20).takeWhile (fun x => !exclNL x))
      else findCDValue t

/-- First `<X>` with nonempty `X` (regex `/<([^>]+)>/`). -/
def findAngleAddr : List Char → Option (List Char)
  | [] => none
  | '<' :: t =>
    let cap := t.takeWhile (· ≠ '>')
    if cap ≠ [] ∧ cap.length < t.length then some cap
    else findAngleAddr t
  | _ :: t => findAngleAddr t

/-- Match of `/([^\s]+)@([^\s]+)/`-shaped pattern `([^\s]+@[^\s]+)`: the first
maximal whitespace-free token that contains `@` at an interior position; the
capture is the whole token. -/
def findBareAddr (l : List Char) : Option (List Char) :=
  (splitBy isJsWhitespace l).find? (fun tok =>
    tok.length ≥ 3 && ((tok.drop 1).dropLast.contains '@'))

/-- Base64 value of a character, `none` for characters outside the alphabet
(Node's decoder skips them). -/
def b64Val (c : Char) : Option Nat :=
  if 'A' ≤ c ∧ c ≤ 'Z' then some (c.toNat - 'A'.toNat)
  else if 'a' ≤ c ∧ c ≤ 'z' then some (c.toNat - 'a'.toNat + 26)
  else if '0' ≤ c ∧ c ≤ '9' then some (c.toNat - '0'.toNat + 52)
  else if c = '+' then some 62
  else if c = '/' then some 63
  else none

/-- Assemble base64 6-bit groups into bytes (lenient about padding, as
Node's `Buffer.from(_, 'base64')` is). -/
def b64Bytes : List Nat → List Nat
  | a :: b :: c :: d :: rest =>
    (a * 4 + b / 16) :: ((b % 16) * 16 + c / 4) :: ((c % 4) * 64 + d) :: b64Bytes rest
  | [a, b] => [a * 4 + b / 16]
  | [a, b, c] => [a * 4 + b / 16, (b % 16) * 16 + c / 4]
  | _ => []

/-- Embedding of `decodeBase64` (lines 170-174): strip all whitespace, then
decode.  The resulting bytes are represented as characters (the repository
only round-trips ASCII payloads through `toString('utf-8')`). -/
def decodeBase64 (content : List Char) : List Char :=
  (b64Bytes ((content.filter (fun c => !isJsWhitespace c)).filterMap b64Val)).map Char.ofNat

/-- Core of `decodeQuotedPrintable` on character lists. -/
def qpDecodeL (l : List Char) : List Char :=
  removeEqLF (removeEqCRLF (qpReplaceHexUpper l))

/-! ## Header parsing (`parseS3Email`, lines 74-109) -/

/-- JavaScript object property assignment `obj[k] = v`: overwrite in place if
the key exists, append otherwise. -/
def jsObjSet (m : List (String × String)) (k v : String) : List (String × String) :=
  if m.any (fun p => p.1 == k) then
    m.map (fun p => if p.1 == k then (k, v) else p)
  else m ++ [(k, v)]

/-- JavaScript object property read `obj[k]` (exact, case-sensitive key). -/
def jsObjGet (m : List (String × String)) (k : String) : Option String :=
  (m.find? (fun p => p.1 == k)).map Prod.snd

/-- Model of header-start regex `/^([^:]+):\s*(.*)/`: nonempty name up to the
first `:`, value is the rest of the line after `\s*` and up to a stray `\r`
(the `.` class excludes line terminators). -/
def headerStartMatch (line : List Char) : Option (List Char × List Char) :=
  let name := line.takeWhile (· ≠ ':')
  if name ≠ [] ∧ name.length < line.length then
    some (name, ((line.drop (name.length + 1)).dropWhile isJsWhitespace).takeWhile (· ≠ '\r'))
  else none

/-- The header accumulation loop of `parseS3Email` (lines 82-108), carried
over the `/\r?\n/`-split lines with the `currentHeader`/`currentValue`
state of the source. -/
def headerLoop : List (List Char) → List Char → List Char → List (String × String) →
    List (String × String)
  | [], ch, cv, acc => if ch ≠ [] then jsObjSet acc ⟨ch⟩ ⟨cv⟩ else acc
  | line :: rest, ch, cv, acc =>
    if (line.head?.map isJsWhitespace).getD false then
      headerLoop rest ch (cv ++ ' ' :: jsTrimL line) acc
    else
      let acc2 := if ch ≠ [] then jsObjSet acc ⟨ch⟩ ⟨cv⟩ else acc
      match headerStartMatch line with
      | some (n, v) => headerLoop rest n v acc2
      | none => headerLoop rest ch cv acc2

/-- Header extraction of `parseS3Email`: header text is the capture of
`/^(.*?)\r?\n\r?\n/s` (everything before the first blank-line separator);
without a blank line, or with an empty capture, the header map is empty. -/
def parseHeadersOf (raw : List Char) : List (String × String) :=
  match splitFirstBlank raw with
  | some (headerText, _) =>
    if headerText ≠ [] then headerLoop (splitLinesCRLF headerText) [] [] [] else []
  | none => []

/-- JavaScript `a || b` over possibly-absent strings: empty strings are
falsy. -/
def jsOrStr (a b : Option String) : Option String :=
  match a with
  | some s => if s ≠ "" then some s else b
  | none => b

/-! ## Data model of `parseS3Email` results -/

/-- Model of a JavaScript `Date` value: `new Date(string)` never throws, it
yields an Invalid Date when the string cannot be parsed.  The runtime's
parsing function and clock are environment parameters. -/
inductive JsDate where
  | valid (t : Int)
  | invalid
deriving DecidableEq, Repr

/-- Embedding of the `Attachment` interface; `Buffer` content is a byte
(character) list. -/
structure AttachmentRec where
  filename : String
  content : List Char
  contentType : String
deriving DecidableEq, Repr

/-- Embedding of the `EmailContent` interface.  Optional (`?`) fields are
`Option`s; a field assigned an empty string by the source is `some ""`,
which is distinct from an absent field (`none`). -/
structure EmailContent where
  fromAddr : String
  toAddrs : List String
  cc : Option (List String)
  subject : String
  textBody : Option String
  htmlBody : Option String
  attachments : Option (List AttachmentRec)
  headers : List (String × String)
  date : JsDate
deriving DecidableEq, Repr

/-- Mutable accumulation state of the part-processing loop of
`parseS3Email` (`textBody`, `htmlBody`, `attachments`). -/
structure PState where
  textBody : List Char
  htmlBody : List Char
  attachments : List AttachmentRec
deriving DecidableEq, Repr

/-! ## Part processing (`processPart`, lines 258-338) -/

/-- Content capture of `processPart` (line 271), the regex
`/\r?\n\r?\n([\s\S]*?)(?:\r?\n\r?\n|$)/`: the text between the first
blank-line separator and the second one (or the end of the part). -/
def partContent (part : List Char) : Option (List Char) :=
  match splitFirstBlank part with
  | none => none
  | some (_, rest) =>
    match splitFirstBlank rest with
    | none => some rest
    | some (mid, _) => some mid

/-- Media type of a part: capture of `/Content-Type:\s*([^;\r\n]+)/i`,
trimmed and lower-cased; `text/plain` when absent. -/
def partContentTypeOf (part : List Char) : List Char :=
  match findHeaderCapture "content-type:".data exclSemiNL part with
  | some cap => lowerL (jsTrimL cap)
  | none => "text/plain".data

/-- Transfer encoding of a part: capture of
`/Content-Transfer-Encoding:\s*([^\r\n]+)/i`, trimmed and lower-cased;
`binary` when absent. -/
def partEncodingOf (part : List Char) : List Char :=
  match findHeaderCapture "content-transfer-encoding:".data exclNL part with
  | some cap => lowerL (jsTrimL cap)
  | none => "binary".data

/-- Decoding applied by `processPart` to text and HTML content. -/
def decodeTextContent (encoding content : List Char) : List Char :=
  if encoding = "quoted-printable".data then qpDecodeL content
  else if encoding = "base64".data then decodeBase64 content
  else content

/-- Decoding applied by `processPart` to attachment content. -/
def decodeAttachmentContent (encoding content : List Char) : List Char :=
  if encoding = "base64".data then decodeBase64 content
  else if encoding = "quoted-printable".data then qpDecodeL content
  else content

/-- Embedding of `processPart` (lines 258-338). -/
def processPart (st : PState) (part : List Char) : PState :=
  let contentType := partContentTypeOf part
  let encoding := partEncodingOf part
  let disp := extractContentDisposition part
  match partContent part with
  | none => st
  | some content0 =>
    if content0 = [] then st
    else
      let content := jsTrimL content0
      if "text/plain".data.isPrefixOf contentType && !disp.isAttachment then
        let decoded := decodeTextContent encoding content
        if jsTrimL decoded ≠ [] then
          { st with textBody :=
              if st.textBody ≠ [] then st.textBody ++ '\n' :: '\n' :: decoded else decoded }
        else st
      else if "text/html".data.isPrefixOf contentType && !disp.isAttachment then
        let decoded := decodeTextContent encoding content
        if jsTrimL decoded ≠ [] then
          { st with htmlBody :=
              if st.htmlBody ≠ [] then st.htmlBody ++ '\n' :: decoded else decoded }
        else st
      else if disp.isAttachment || "image/".data.isPrefixOf contentType ||
          disp.filename.isSome || containsSub "application/".data contentType then
        let attContent := decodeAttachmentContent encoding content
        let attName := match disp.filename with
          | some f => f
          | none => "attachment-" ++ toString (st.attachments.length + 1)
        let attType : String := if contentType ≠ [] then ⟨contentType⟩ else "application/octet-stream"
        { st with attachments := st.attachments ++ [⟨attName, attContent, attType⟩] }
      else st

/-! ## Email parsing (`parseS3Email`, lines 63-352) -/

/-- The `continue` guard of the part loops (lines 213 and 223). -/
def skipPart (part : List Char) : Bool :=
  jsTrimL part = [] || jsTrimL part = "--".data

/-- The top-level part loop (lines 212-232): parts with a same-line nested
`boundary="..."` are split again on the nested boundary, one level deep. -/
def processTopParts (st : PState) (parts : List (List Char)) : PState :=
  parts.foldl (fun st part =>
    if skipPart part then st
    else
      match findNestedBoundary part with
      | some nb =>
        (splitOnStr ('-' :: '-' :: nb) part).foldl
          (fun st np => if skipPart np then st else processPart st np) st
      | none => processPart st part) st

/-- Test of `rawEmail.match(/Content-Transfer-Encoding:\s*quoted-printable/i)`. -/
def qpHeaderPresent : List Char → Bool
  | [] => false
  | c :: t =>
    (ciIsPrefixOf "content-transfer-encoding:".data (c :: t) &&
      ciIsPrefixOf "quoted-printable".data
        (((c :: t).drop 26).dropWhile isJsWhitespace)) ||
    qpHeaderPresent t

/-- The non-multipart branch of `parseS3Email` (lines 233-255): the whole
text after the first blank line becomes `textBody` or `htmlBody` according
to the exact main media type; any other type contributes nothing. -/
def nonMultipartState (raw mainContentType : List Char) : PState :=
  match splitFirstBlank raw with
  | none => ⟨[], [], []⟩
  | some (_, rest) =>
    if rest = [] then ⟨[], [], []⟩
    else
      let content := jsTrimL rest
      if mainContentType = "text/plain".data then
        ⟨if qpHeaderPresent raw then qpDecodeL content else content, [], []⟩
      else if mainContentType = "text/html".data then
        ⟨[], if qpHeaderPresent raw then qpDecodeL content else content, []⟩
      else ⟨[], [], []⟩

/-- Body extraction of `parseS3Email` (lines 200-255): multipart split on the
literal string `--<boundary>` over the whole input when a boundary was found,
single-body handling otherwise. -/
def parseBodiesOf (raw : List Char) : PState :=
  match findMainContentType raw with
  | some (_, some b) => processTopParts ⟨[], [], []⟩ (splitOnStr ('-' :: '-' :: b) raw)
  | some (cap, none) => nonMultipartState raw (lowerL (jsTrimL cap))
  | none => nonMultipartState raw "text/plain".data

/-- Recipient extraction of `parseS3Email` (lines 114-137), including the
S3-key fallback (second key part, when it contains `@`). -/
def toAddressesOf (headers : List (String × String)) (keyParts : Option (List String)) :
    List String :=
  let toHeader := (jsOrStr (jsObjGet headers "To") (jsObjGet headers "to")).getD ""
  let toAddresses : List String :=
    if toHeader ≠ "" then
      (splitBy (· = ',') toHeader.data).map (fun addr =>
        match findAngleAddr addr with
        | some cap => (⟨jsTrimL cap⟩ : String)
        | none =>
          match findBareAddr addr with
          | some cap => ⟨jsTrimL cap⟩
          | none => ⟨jsTrimL addr⟩)
    else []
  match keyParts with
  | none => toAddresses
  | some kp =>
    if toAddresses = [] ∧ kp.length ≥ 2 then
      match kp.get? 1 with
      | some p => if p.data.contains '@' then [p] else toAddresses
      | none => toAddresses
    else toAddresses

/-- Date extraction of `parseS3Email` (lines 139-147): `new Date(header)` is
modelled by the runtime parameter `pd`; a present but unparseable header
yields an Invalid Date (the `try`/`catch` of the source cannot fire, since
`new Date` does not throw), an absent or empty header yields the current
time. -/
def parseDateField (pd : String → Option Int) (now : Int)
    (headers : List (String × String)) : JsDate :=
  let dval := (jsOrStr (jsObjGet headers "Date") (jsObjGet headers "date")).getD ""
  if dval ≠ "" then
    match pd dval with
    | some t => JsDate.valid t
    | none => JsDate.invalid
  else JsDate.valid now

/-- Embedding of `parseS3Email` (lines 63-352).  `pd` and `now` model the
JavaScript runtime's date parser and clock; `keyParts` is the optional
S3-key hint. -/
def parseS3Email (pd : String → Option Int) (now : Int) (emailBuffer : String)
    (keyParts : Option (List String)) : EmailContent :=
  let raw := emailBuffer.data
  let headers := parseHeadersOf raw
  let st := parseBodiesOf raw
  { fromAddr := (jsOrStr (jsObjGet headers "From") (jsObjGet headers "from")).getD
      "unknown@example.com"
    toAddrs := toAddressesOf headers keyParts
    cc := none
    subject := (jsOrStr (jsObjGet headers "Subject") (jsObjGet headers "subject")).getD
      "No Subject"
    textBody := some ⟨st.textBody⟩
    htmlBody := some ⟨st.htmlBody⟩
    attachments := if st.attachments.length > 0 then some st.attachments else none
    headers := headers
    date := parseDateField pd now headers }

/-! ## Forwarding destination lookup (`findForwardingDestination`,
src/utils/mappingUtils.ts, lines 17-65) -/

/-- Value type of the mapping configuration: `string | string[]`. -/
inductive MapVal where
  | str (s : String)
  | arr (l : List String)
deriving DecidableEq, Repr

/-- JavaScript truthiness of a mapping value: an empty string is falsy,
every array (including the empty one) is truthy. -/
def MapVal.truthy : MapVal → Bool
  | .str s => s ≠ ""
  | .arr _ => true

/-- `Array.isArray(destination) ? destination[0] : destination`: `[][0]` is
`undefined`. -/
def MapVal.firstDest : MapVal → Option String
  | .str s => some s
  | .arr l => l.head?

/-- The mapping object, as an association list with unique keys. -/
abbrev EmailMapping := List (String × MapVal)

/-- `mapping[k]` read. -/
def lookupMap (m : EmailMapping) (k : String) : Option MapVal :=
  (m.find? (fun p => p.1 == k)).map Prod.snd

/-- The `if (mapping[k])` guard: the value, provided it is truthy. -/
def lookupTruthy (m : EmailMapping) (k : String) : Option MapVal :=
  match lookupMap m k with
  | some v => if v.truthy then some v else none
  | none => none

/-- `recipient.split('@')[1]`. -/
def domainOf (recipient : String) : Option (List Char) :=
  (splitBy (· = '@') recipient.data).get? 1

/-- `.split('.').slice(-2).join('.')`: the last two dot-separated labels. -/
def baseDomainOf (d : List Char) : List Char :=
  let labels := splitBy (· = '.') d
  joinDots (labels.drop (labels.length - 2))
where
  joinDots : List (List Char) → List Char
    | [] => []
    | [x] => x
    | x :: y :: r => x ++ '.' :: joinDots (y :: r)

/-- Embedding of `findForwardingDestination`
(src/utils/mappingUtils.ts, lines 17-65). -/
def findForwardingDestination (recipient : String) (mapping : EmailMapping) :
    Option String :=
  match lookupTruthy mapping recipient with
  | some v => v.firstDest
  | none =>
    match domainOf recipient with
    | none => none
    | some d =>
      if d = [] then none
      else
        match lookupTruthy mapping ("*@" ++ (⟨d⟩ : String)) with
        | some v => v.firstDest
        | none =>
          let subRes :=
            if d.contains '.' then
              lookupTruthy mapping ("*@*." ++ (⟨baseDomainOf d⟩ : String))
            else none
          match subRes with
          | some v => v.firstDest
          | none =>
            match lookupTruthy mapping "*" with
            | some v => v.firstDest
            | none => none

/-- Priority list of keys the lookup consults, in order: the exact
recipient; then, only when the text after the first `@` is nonempty, the
domain wildcard, the subdomain wildcard (only when the domain contains a
dot), and the catch-all. -/
def candidateKeys (recipient : String) : List String :=
  match domainOf recipient with
  | none => [recipient]
  | some d =>
    if d = [] then [recipient]
    else
      [recipient, "*@" ++ (⟨d⟩ : String)]
        ++ (if d.contains '.' then ["*@*." ++ (⟨baseDomainOf d⟩ : String)] else [])
        ++ ["*"]

/-- Declarative reading of the lookup: the first candidate key bound to a
truthy value decides the result (first element for array values). -/
def specFindDest (recipient : String) (mapping : EmailMapping) : Option String :=
  ((candidateKeys recipient).findSome? (fun k => lookupTruthy mapping k)).bind
    MapVal.firstDest

/-! ## Raw forwarding (`formatRawForwardedEmail`, lines 364-697) -/

/-- Line starts for the JavaScript multiline anchors `^`/`$`: both `\n` and
`\r` are ECMAScript line terminators, so header-style regexes
`/^Key:\s*(.*)$/im` see the text cut at every `\n` or `\r`. -/
def anchorLines (l : List Char) : List (List Char) :=
  splitBy (fun c => c = '\n' || c = '\r') l

/-- Model of `raw.match(/^KEY\s*(.*)$/im)`: the first anchor line beginning
(case-insensitively) with the key; the capture is the rest of that line
after greedy `\s*`. -/
def firstAnchorValue (key : List Char) (raw : List Char) : Option (List Char) :=
  (anchorLines raw).findSome? (fun line =>
    if ciIsPrefixOf key line then
      some ((line.drop key.length).dropWhile isJsWhitespace)
    else none)

/-- `originalSubject` (line 370-371). -/
def originalSubjectOf (raw : List Char) : List Char :=
  match firstAnchorValue "subject:".data raw with
  | some v => jsTrimL v
  | none => "No Subject".data

/-- `originalFrom` (lines 372-373). -/
def originalFromOf (raw : List Char) : List Char :=
  match firstAnchorValue "from:".data raw with
  | some v => jsTrimL v
  | none => "unknown@example.com".data

/-- `originalDate` (lines 374-375); `nowUTC` models `new Date().toUTCString()`. -/
def originalDateOf (raw : List Char) (nowUTC : String) : List Char :=
  match firstAnchorValue "date:".data raw with
  | some v => jsTrimL v
  | none => nowUTC.data

/-- `replyTo` (lines 614-615). -/
def replyToOf (raw : List Char) : List Char :=
  match firstAnchorValue "reply-to:".data raw with
  | some v => jsTrimL v
  | none => originalFromOf raw

/-- The content type found by lines 389-391. -/
def frContentType (raw : List Char) : Option (List Char) :=
  (findHeaderCapture "content-type:".data exclSemiNL raw).map (fun cap => lowerL (jsTrimL cap))

/-- The loose boundary regex of line 394:
`/boundary=["']?([^"';\r\n]+)["']?/im`. -/
def findBoundaryLoose : List Char → Option (List Char)
  | [] => none
  | c :: t =>
    if ciIsPrefixOf "boundary=".data (c :: t) then
      let after := (c :: t).drop 9
      let after2 := match after with
        | '"' :: u => u
        | '\'' :: u => u
        | _ => after
      let cap := after2.takeWhile (fun x => x ≠ '"' && x ≠ '\'' && x ≠ ';' && !exclNL x)
      if cap ≠ [] then some cap else findBoundaryLoose t
    else findBoundaryLoose t

/-- `boundary` (lines 394-397). -/
def frBoundary (raw : List Char) : Option (List Char) :=
  (findBoundaryLoose raw).map jsTrimL

/-- One attempted match of the attachment-disposition pattern of line 403:
`/Content-Disposition:\s*attachment;\s*filename=["']?([^"'\r\n;]+)["']?/gi`.
Returns the capture and the text after it. -/
def tryDispositionAttachment (l : List Char) : Option (List Char × List Char) :=
  if ciIsPrefixOf "content-disposition:".data l then
    let a1 := (l.drop 20).dropWhile isJsWhitespace
    if ciIsPrefixOf "attachment;".data a1 then
      let a2 := (a1.drop 11).dropWhile isJsWhitespace
      if ciIsPrefixOf "filename=".data a2 then
        let a3 := a2.drop 9
        let a4 := match a3 with
          | '"' :: u => u
          | '\'' :: u => u
          | _ => a3
        let cap := a4.takeWhile (fun x => x ≠ '"' && x ≠ '\'' && x ≠ ';' && !exclNL x)
        if cap ≠ [] then some (cap, a4.drop cap.length) else none
      else none
    else none
  else none

/-- The first `exec` loop (lines 404-410), collecting trimmed captures.
The scan restarts one character further on failure; after a successful
match it continues after the capture. -/
def attachScan1 : List Char → List (List Char)
  | [] => []
  | c :: t =>
    match tryDispositionAttachment (c :: t) with
    | some (cap, _) => jsTrimL cap :: attachScan1 t
    | none => attachScan1 t

/-- One attempted match of the alternative pattern of line 413:
`/Content-Type:[^\r\n]+name=["']?([^"'\r\n;]+)["']?/gi`.  The greedy
`[^\r\n]+` selects the last viable `name=` on the line, at least one
character after the colon. -/
def tryTypeName (l : List Char) : Option (List Char) :=
  if ciIsPrefixOf "content-type:".data l then
    let after := l.drop 13
    let win := (after.takeWhile (fun x => !exclNL x)).length
    let hits := ((ciMatchPositions "name=".data after win).filter (· ≥ 1)).reverse
    hits.findSome? (fun i =>
      let a3 := after.drop (i + 5)
      let a4 := match a3 with
        | '"' :: u => u
        | '\'' :: u => u
        | _ => a3
      let cap := a4.takeWhile (fun x => x ≠ '"' && x ≠ '\'' && x ≠ ';' && !exclNL x)
      if cap ≠ [] then some cap else none)
  else none

/-- The second `exec` loop (lines 413-420), collecting raw captures. -/
def attachScan2 : List Char → List (List Char)
  | [] => []
  | c :: t =>
    match tryTypeName (c :: t) with
    | some cap => cap :: attachScan2 t
    | none => attachScan2 t

/-- `attachmentNames` after both loops: second-loop names are trimmed and
added only when they contain a dot and are not already present. -/
def attachmentNamesOf (raw : List Char) : List (List Char) :=
  (attachScan2 raw).foldl
    (fun acc n =>
      let fn := jsTrimL n
      if fn.contains '.' && !acc.contains fn then acc ++ [fn] else acc)
    (attachScan1 raw)

/-- Terminator alternation `(?:\r?\n\-\-|\r?\n\r?\nContent-Type:)` of the
simple text-extraction pattern (line 428), tested at one position. -/
def tcmTerminatorAt (l : List Char) : Bool :=
  match l with
  | '\r' :: '\n' :: '-' :: '-' :: _ => true
  | '\n' :: '-' :: '-' :: _ => true
  | _ =>
    match blankSepAt l with
    | some n => ciIsPrefixOf "content-type:".data (l.drop n)
    | none => false

/-- Index of the first terminator position (the lazy `([\s\S]*?)` stops at
the earliest one). -/
def findTcmEnd : List Char → Option Nat
  | [] => none
  | c :: t => if tcmTerminatorAt (c :: t) then some 0 else (findTcmEnd t).map (· + 1)

/-- One attempted match of the simple text-content pattern of line 428:
`Content-Type:\s*text\/plain[\s\S]*?\r?\n\r?\n([\s\S]*?)(?:\r?\n\-\-|\r?\n\r?\nContent-Type:)`
(the lazy gaps take the earliest blank separator and the earliest
terminator). -/
def tryTextPlainCT (l : List Char) : Option (List Char) :=
  if ciIsPrefixOf "content-type:".data l then
    let a1 := (l.drop 13).dropWhile isJsWhitespace
    if ciIsPrefixOf "text/plain".data a1 then
      match splitFirstBlank (a1.drop 10) with
      | some (_, rest) =>
        match findTcmEnd rest with
        | some n => some (rest.take n)
        | none => none
      | none => none
    else none
  else none

/-- `textContentMatch` (line 428): first position where the simple pattern
matches. -/
def textContentMatchOf : List Char → Option (List Char)
  | [] => none
  | c :: t =>
    match tryTextPlainCT (c :: t) with
    | some cap => some cap
    | none => textContentMatchOf t

/-- Encoding looked up over the whole input by the simple-pattern branch
(lines 433-434), `none` when absent. -/
def frEncoding (raw : List Char) : List Char :=
  match findHeaderCapture "content-transfer-encoding:".data exclNL raw with
  | some cap => lowerL (jsTrimL cap)
  | none => "none".data

/-- `rawEmail.split(/\r?\n\r?\n/, 2)`: the JavaScript limit-2 split keeps the
first two split pieces (the piece between the first and second separator,
not the whole remainder). -/
def jsSplitLimit2Blank (l : List Char) : List (List Char) :=
  match splitFirstBlank l with
  | none => [l]
  | some (b1, r) =>
    match splitFirstBlank r with
    | none => [b1, r]
    | some (b2, _) => [b1, b2]

/-- Fuel-driven worker for `splitOnNLBoundary`. -/
def splitOnNLBoundaryGo (b : List Char) : Nat → List Char → List (List Char)
  | 0, l => [l]
  | _ + 1, [] => [[]]
  | fuel + 1, c :: t =>
    if ('\r' :: '\n' :: '-' :: '-' :: b).isPrefixOf (c :: t) then
      [] :: splitOnNLBoundaryGo b fuel ((c :: t).drop (b.length + 4))
    else if ('\n' :: '-' :: '-' :: b).isPrefixOf (c :: t) then
      [] :: splitOnNLBoundaryGo b fuel ((c :: t).drop (b.length + 3))
    else
      match splitOnNLBoundaryGo b fuel t with
      | [] => [[c]]
      | hd :: r => (c :: hd) :: r

/-- Split on the second-attempt pattern `\r?\n--<boundary>` (line 512). -/
def splitOnNLBoundary (b : List Char) (l : List Char) : List (List Char) :=
  splitOnNLBoundaryGo b l.length l

/-- Accumulated preview-extraction state of `formatRawForwardedEmail`
(`extractedText`, `extractedHtml`, `foundTextPart`, `foundHtmlPart`). -/
structure FRLoopState where
  text : List Char
  html : List Char
  foundText : Bool
  foundHtml : Bool
deriving DecidableEq, Repr

/-- One iteration of the multipart preview loop (lines 517-571). -/
def frPartStep (endBoundary : List Char) (st : FRLoopState) (part0 : List Char) :
    FRLoopState :=
  let part := jsTrimL part0
  if part = [] || part = endBoundary then st
  else
    match findHeaderCapture "content-type:".data exclSemiNL part with
    | none => st
    | some cap =>
      let partContentType := lowerL (jsTrimL cap)
      let encoding := match findHeaderCapture "content-transfer-encoding:".data exclNL part with
        | some e => lowerL (jsTrimL e)
        | none => "none".data
      match (jsSplitLimit2Blank part).get? 1 with
      | none => st
      | some piece =>
        let content := jsTrimL piece
        if partContentType = "text/plain".data && !st.foundText then
          { st with
            foundText := true
            text := if encoding = "quoted-printable".data then qpDecodeL content
                    else if encoding = "base64".data then decodeBase64 content
                    else content }
        else if partContentType = "text/html".data && !st.foundHtml then
          { st with
            foundHtml := true
            html := if encoding = "quoted-printable".data then qpDecodeL content
                    else if encoding = "base64".data then decodeBase64 content
                    else content }
        else st

/-- The fixed fallback text of line 378. -/
def defaultPreviewText : List Char := "Original message content could not be parsed.".data

/-- The `[ATTACHMENT: name]` footer lines (lines 450-455 and 461-464). -/
def attachmentFooter (names : List (List Char)) : List Char :=
  names.foldl (fun acc n => acc ++ "\n[ATTACHMENT: ".data ++ n ++ "]".data) []

/-- Preview extraction of `formatRawForwardedEmail` (lines 377-591):
the simple text pattern first, then the content-type-directed branches. -/
def extractPreview (raw : List Char) : FRLoopState :=
  let names := attachmentNamesOf raw
  let base : FRLoopState :=
    match textContentMatchOf raw with
    | some cap =>
      let textContent := jsTrimL cap
      let enc := frEncoding raw
      let t0 := if enc = "quoted-printable".data then qpDecodeL textContent
                else if enc = "base64".data then decodeBase64 textContent
                else textContent
      let t1 := if names ≠ [] then
          t0 ++ "\n\n----- Attachments -----".data ++ attachmentFooter names
        else t0
      ⟨t1, [], true, false⟩
    | none =>
      if names ≠ [] then
        ⟨"Email content could not be extracted.\n\n----- Attachments -----".data ++
          attachmentFooter names, [], false, false⟩
      else ⟨defaultPreviewText, [], false, false⟩
  match frContentType raw with
  | none => base
  | some ct =>
    if "text/plain".data.isPrefixOf ct && !base.foundText then
      match splitFirstBlank raw with
      | some (_, rest) => if rest ≠ [] then { base with text := jsTrimL rest } else base
      | none => base
    else if "text/html".data.isPrefixOf ct then
      match splitFirstBlank raw with
      | some (_, rest) =>
        if rest ≠ [] then
          { base with
            html := jsTrimL rest
            text := "This email contains HTML content. See attachment for complete message.".data }
        else base
      | none => base
    else if "multipart/".data.isPrefixOf ct then
      match frBoundary raw with
      | none => base
      | some b =>
        let st1 :=
          match splitFirstBlank raw with
          | none => base
          | some _ =>
            let emailBody := ((jsSplitLimit2Blank raw).get? 1).getD []
            let parts0 := splitOnStr ('-' :: '-' :: b) emailBody
            let parts := if parts0.length ≤ 1 then splitOnNLBoundary b emailBody else parts0
            parts.foldl (frPartStep ('-' :: '-' :: b ++ "--".data)) base
        if st1.text = defaultPreviewText && st1.html = [] then
          { st1 with text :=
              "Email content could not be extracted. See attachment for complete message.".data }
        else st1
    else base

/-- `newBoundary` (line 607); the `Math.random` suffix is the parameter. -/
def forwardBoundaryOf (r1 : String) : List Char :=
  "----=_ForwardBoundary_".data ++ r1.data

/-- `altBoundary` (line 608). -/
def altBoundaryOf (r2 : String) : List Char :=
  "----=_AltBoundary_".data ++ r2.data

/-- The plain-text forwarding banner shared by both branches
(lines 639-647 and 674-682). -/
def bannerText (originalFrom originalDate originalSubject originalRecipient
    extractedText : List Char) : List Char :=
  "---------- Forwarded message ---------\nFrom: ".data ++ originalFrom ++
  "\nDate: ".data ++ originalDate ++
  "\nSubject: ".data ++ originalSubject ++
  "\nTo: ".data ++ originalRecipient ++
  "\n\n".data ++ extractedText ++
  "\n\nNote: The complete original message is attached for reference.".data

/-- The HTML forwarding banner (lines 653-665). -/
def htmlBanner (originalFrom originalDate originalSubject originalRecipient
    extractedHtml : List Char) : List Char :=
  "<div style=\"border-top:1px solid #ccc; margin-top:20px; padding-top:10px;\">\n  <p><b>---------- Forwarded message ---------</b><br>\n  <b>From:</b> ".data
    ++ originalFrom ++
  "<br>\n  <b>Date:</b> ".data ++ originalDate ++
  "<br>\n  <b>Subject:</b> ".data ++ originalSubject ++
  "<br>\n  <b>To:</b> ".data ++ originalRecipient ++
  "</p>\n</div>\n\n".data ++ extractedHtml ++
  "\n\n<p style=\"color: #555; font-style: italic; margin-top: 20px; border-top: 1px solid #eee; padding-top: 10px;\">\n  Note: The complete original message is attached for reference.\n</p>".data

/-- Embedding of `formatRawForwardedEmail` (lines 364-697).  `r1`/`r2` are
the `Math.random` boundary suffixes and `nowUTC` the formatted current time,
passed as environment parameters. -/
def formatRawForwardedEmail (rawEmail originalRecipient forwardTo : String)
    (r1 r2 : String) (nowUTC : String) : String :=
  let raw := rawEmail.data
  let originalSubject := originalSubjectOf raw
  let originalFrom := originalFromOf raw
  let originalDate := originalDateOf raw nowUTC
  let pv := extractPreview raw
  let newBoundary := forwardBoundaryOf r1
  let altBoundary := altBoundaryOf r2
  let hasHtml := pv.html ≠ []
  let replyTo := replyToOf raw
  let headerPart : List Char :=
    "From: ".data ++ originalRecipient.data ++
    "\r\nTo: ".data ++ forwardTo.data ++
    "\r\nReply-To: ".data ++ replyTo ++
    "\r\nSubject: Fwd: ".data ++ originalSubject ++
    "\r\nMIME-Version: 1.0\r\nContent-Type: multipart/mixed; boundary=\"".data ++
    newBoundary ++ "\"\r\n\r\n--".data ++ newBoundary
  let contentPart : List Char :=
    if hasHtml then
      "\nContent-Type: multipart/alternative; boundary=\"".data ++ altBoundary ++
      "\"\n\n--".data ++ altBoundary ++
      "\nContent-Type: text/plain; charset=UTF-8\nContent-Transfer-Encoding: 7bit\n\n".data ++
      bannerText originalFrom originalDate originalSubject originalRecipient.data pv.text ++
      "\n\n--".data ++ altBoundary ++
      "\nContent-Type: text/html; charset=UTF-8\nContent-Transfer-Encoding: 7bit\n\n".data ++
      htmlBanner originalFrom originalDate originalSubject originalRecipient.data pv.html ++
      "\n\n--".data ++ altBoundary ++ "--".data
    else
      "\nContent-Type: text/plain; charset=UTF-8\nContent-Transfer-Encoding: 7bit\n\n".data ++
      bannerText originalFrom originalDate originalSubject originalRecipient.data pv.text
  let rfcPart : List Char :=
    "\n\n--".data ++ newBoundary ++
    "\nContent-Type: message/rfc822\nContent-Disposition: attachment; filename=\"original_message.eml\"\n\n".data ++
    raw ++
    "\n\n--".data ++ newBoundary ++ "--".data
  ⟨headerPart ++ contentPart ++ rfcPart⟩

/-! ## Observers used to state the claims about the builder output -/

/-- Unix-style lines of a string (split at every `\n`; `\r` characters stay
inside the lines). -/
def splitNL (l : List Char) : List (List Char) := splitBy (· = '\n') l

/-- Rejoin lines with `\n` (left inverse of `splitNL` for newline-free
lines). -/
def joinNL : List (List Char) → List Char
  | [] => []
  | [x] => x
  | x :: y :: r => x ++ '\n' :: joinNL (y :: r)

/-- The dashed delimiter form `--<boundary>`. -/
def dashdash (b : List Char) : List Char := '-' :: '-' :: b

/-- A line that delimits top-level MIME parts of the builder output: the
part delimiter `--<b>` or the terminator `--<b>--`. -/
def isDelimLine (b : List Char) (line : List Char) : Bool :=
  line = dashdash b || line = dashdash b ++ "--".data

/-- The top-level chunks of the builder output with respect to boundary `b`:
the output's lines, split at every delimiter line.  The first chunk is the
headers-plus-preamble, the last chunk whatever follows the terminator. -/
def mimeChunksOf (out : String) (b : List Char) : List (List (List Char)) :=
  chunksBy (isDelimLine b) (splitNL out.data)

/-- Header lines of a chunk: the lines before the first empty line. -/
def chunkHeaderLines (c : List (List Char)) : List (List Char) :=
  c.takeWhile (· ≠ [])

/-- Payload lines of a chunk: the lines after the first empty line. -/
def chunkPayloadLines (c : List (List Char)) : List (List Char) :=
  (c.dropWhile (· ≠ [])).drop 1

/-- Does a chunk declare itself as the embedded original message? -/
def isRfcPartChunk (c : List (List Char)) : Bool :=
  (chunkHeaderLines c).contains "Content-Type: message/rfc822".data

/-- Payload of a chunk, rejoined; the newline owned by the following
delimiter line (the final empty payload line) is dropped, per the MIME
convention that the CRLF before a delimiter belongs to the delimiter. -/
def chunkPayload (c : List (List Char)) : List Char :=
  joinNL (chunkPayloadLines c).dropLast

/-- Drop one trailing `\r` (header lines of the builder output end in `\r`
because the envelope is CRLF-joined). -/
def stripTrailingCR (l : List Char) : List Char :=
  if l.getLast? = some '\r' then l.dropLast else l

/-- Value of the first output line starting with the given prefix (used to
read the `Subject` header of the builder output). -/
def getHeaderLineValue (pre : List Char) (out : String) : Option String :=
  (splitNL out.data).findSome? (fun l =>
    if pre.isPrefixOf l then some (⟨stripTrailingCR (l.drop pre.length)⟩ : String)
    else none)

/-- Modelled from the spec: `HeaderParser` (spec section 4.1) with its
case-insensitive `get`, applied to the `Subject` header.  This is the
comparison point for the claim wording "the original message's Subject";
the embedded header parser of `parseS3Email` supplies the header map. -/
def specSubjectOf (raw : String) : Option String :=
  ((parseHeadersOf raw.data).find? (fun p => jsLower p.1 == "subject")).map Prod.snd

/-- Substring-occurrence predicate (`p` occurs contiguously inside `l`). -/
def SubIn (p l : List Char) : Prop := ∃ a b, l = a ++ p ++ b

/-- A character list representing a single output line (no embedded `\n`). -/
def NoNL (l : List Char) : Prop := ∀ c ∈ l, c ≠ '\n'

/-! ## Concrete inputs used by the claim counterexamples and witnesses -/

/-- A multipart email whose text payload contains the boundary-shaped
substring `--b` in the middle of a line (claim C2). -/
def c2Email : String :=
  "Content-Type: multipart/mixed; boundary=\"b\"\r\n\r\n--b\r\nContent-Type: text/plain\r\n\r\nabc--bdef\r\n\r\n--b--"

/-- A three-level-deep multipart email; the innermost `text/plain` leaf reads
`deep text` (claim C4). -/
def c4Email : String :=
  "Content-Type: multipart/mixed; boundary=\"A\"\r\n\r\n--A\r\nContent-Type: multipart/mixed; boundary=\"B\"\r\n\r\n--B\r\nContent-Type: multipart/mixed; boundary=\"C\"\r\n\r\n--C\r\nContent-Type: text/plain\r\n\r\ndeep text\r\n--C--\r\n--B--\r\n--A--"

/-- The second-level part of `c4Email` that still carries nested multipart
structure (claim C4 witness). -/
def c4DeepPart : List Char :=
  "\r\nContent-Type: multipart/mixed; boundary=\"C\"\r\n\r\n--C\r\nContent-Type: text/plain\r\n\r\ndeep text\r\n--C--\r\n".data

/-- An email whose `Date` header is present but not a parseable date
(claim C5). -/
def c5DateEmail : String := "From: x@y.example\r\nDate: Blursday 99\r\n\r\nhi"

/-- A plain-text email with no HTML part at all (claim C6). -/
def c6Email : String := "From: a@b.c\r\nSubject: T\r\nContent-Type: text/plain\r\n\r\nhello"

/-- A multipart email with two `text/html` leaves (claim C8). -/
def c8HtmlEmail : String :=
  "Content-Type: multipart/mixed; boundary=\"bb\"\r\n\r\n--bb\r\nContent-Type: text/html\r\n\r\n<p>one</p>\r\n\r\n--bb\r\nContent-Type: text/html\r\n\r\n<p>two</p>\r\n\r\n--bb--"

/-- The same email with two `text/plain` leaves (claim C8). -/
def c8TextEmail : String :=
  "Content-Type: multipart/mixed; boundary=\"bb\"\r\n\r\n--bb\r\nContent-Type: text/plain\r\n\r\none\r\n\r\n--bb\r\nContent-Type: text/plain\r\n\r\ntwo\r\n\r\n--bb--"

/-- A single leaf part carrying a `text/html` body (claim C8 witness). -/
def c8WitnessPart : List Char := "Content-Type: text/html\r\n\r\n<p>two</p>".data

/-- A single leaf part carrying a `text/plain` body (claim C8 witness). -/
def c8WitnessPartT : List Char := "Content-Type: text/plain\r\n\r\ntwo".data

/-- An email whose body already contains the boundary token the builder will
choose when `Math.random` yields `abc123` (claim C3). -/
def c3Email : String := "Subject: hi\r\n\r\nbody with ----=_ForwardBoundary_abc123 inside"

/-- An email with no `Subject` header whose body contains a line that looks
like a `Subject` header (claim C1 counterexample). -/
def c1Email : String := "From: a@b.c\r\n\r\nSubject: sneaky"

/-- The seven CRLF-terminated envelope header lines of the builder output
(`headerPart`), as `splitNL` produces them. -/
def frEnvLines (raw : List Char) (orig fwd r1 : String) : List (List Char) :=
  [ "From: ".data ++ orig.data ++ "\r".data,
    "To: ".data ++ fwd.data ++ "\r".data,
    "Reply-To: ".data ++ replyToOf raw ++ "\r".data,
    "Subject: Fwd: ".data ++ originalSubjectOf raw ++ "\r".data,
    "MIME-Version: 1.0".data ++ "\r".data,
    "Content-Type: multipart/mixed; boundary=\"".data ++ forwardBoundaryOf r1 ++
      "\"".data ++ "\r".data,
    "\r".data ]

/-- The lines of the plain-text part header plus the forwarding banner, up to
(and including) the blank line before the extracted text. -/
def frPreludeLines (raw : List Char) (orig now : String) : List (List Char) :=
  [ "Content-Type: text/plain; charset=UTF-8".data,
    "Content-Transfer-Encoding: 7bit".data,
    [],
    "---------- Forwarded message ---------".data,
    "From: ".data ++ originalFromOf raw,
    "Date: ".data ++ originalDateOf raw now,
    "Subject: ".data ++ originalSubjectOf raw,
    "To: ".data ++ orig.data,
    [] ]

/-- The lines between the extracted text and the next boundary delimiter. -/
def frTrailerLines : List (List Char) :=
  [ [],
    "Note: The complete original message is attached for reference.".data,
    [] ]

/-- The lines of the content chunk in the plain-text branch of the builder. -/
def frContentPlain (raw : List Char) (orig now : String) : List (List Char) :=
  frPreludeLines raw orig now ++ splitNL (extractPreview raw).text ++ frTrailerLines

/-- The lines between the extracted text and the extracted HTML in the
`multipart/alternative` branch of the builder. -/
def frHtmlMidLines (raw : List Char) (orig now r2 : String) : List (List Char) :=
  frTrailerLines ++
  [ dashdash (altBoundaryOf r2),
    "Content-Type: text/html; charset=UTF-8".data,
    "Content-Transfer-Encoding: 7bit".data,
    [],
    "<div style=\"border-top:1px solid #ccc; margin-top:20px; padding-top:10px;\">".data,
    "  <p><b>---------- Forwarded message ---------</b><br>".data,
    "  <b>From:</b> ".data ++ originalFromOf raw ++ "<br>".data,
    "  <b>Date:</b> ".data ++ originalDateOf raw now ++ "<br>".data,
    "  <b>Subject:</b> ".data ++ originalSubjectOf raw ++ "<br>".data,
    "  <b>To:</b> ".data ++ orig.data ++ "</p>".data,
    "</div>".data,
    [] ]

/-- The lines after the extracted HTML in the `multipart/alternative` branch,
up to the closing alternative delimiter. -/
def frHtmlTailLines (r2 : String) : List (List Char) :=
  [ [],
    "<p style=\"color: #555; font-style: italic; margin-top: 20px; border-top: 1px solid #eee; padding-top: 10px;\">".data,
    "  Note: The complete original message is attached for reference.".data,
    "</p>".data,
    [],
    dashdash (altBoundaryOf r2) ++ "--".data,
    [] ]

/-- The lines of the content chunk in the HTML branch of the builder. -/
def frContentHtml (raw : List Char) (orig now r2 : String) : List (List Char) :=
  ("Content-Type: multipart/alternative; boundary=\"".data ++ altBoundaryOf r2 ++
    "\"".data) ::
  [] ::
  dashdash (altBoundaryOf r2) ::
  (frPreludeLines raw orig now ++ splitNL (extractPreview raw).text ++
   frHtmlMidLines raw orig now r2 ++ splitNL (extractPreview raw).html ++
   frHtmlTailLines r2)

/-- The lines of the `message/rfc822` attachment chunk: its two part headers,
the blank separator, the lines of the embedded original, and the empty line
owned by the newline that precedes the closing delimiter. -/
def frRfcLines (raw : List Char) : List (List Char) :=
  "Content-Type: message/rfc822".data ::
  "Content-Disposition: attachment; filename=\"original_message.eml\"".data ::
  [] :: (splitNL raw ++ [[]])

/-- The full line decomposition of the builder output: envelope lines, then
the content chunk and the rfc822 chunk, each introduced by a boundary
delimiter line, then the closing terminator line. -/
def frDocOf (raw : List Char) (orig fwd r1 : String) (content : List (List Char)) :
    List (List Char) :=
  frEnvLines raw orig fwd r1 ++
  dashdash (forwardBoundaryOf r1) ::
  (content ++
   dashdash (forwardBoundaryOf r1) ::
   (frRfcLines raw ++ [dashdash (forwardBoundaryOf r1) ++ "--".data]))

/-! # Theorems

Shared helper lemmas first, then one main theorem per claim (with its
witness or counterexample where required). -/

/-! ## Helper lemmas for the quoted-printable decoder -/

theorem qpReplaceHexUpper_cons_ne (c : Char) (hc : c ≠ '=') (l : List Char) :
    qpReplaceHexUpper (c :: l) = c :: qpReplaceHexUpper l := by
  cases l with
  | nil => simp [qpReplaceHexUpper, hc]
  | cons a t =>
    cases t with
    | nil => simp [qpReplaceHexUpper, hc]
    | cons b u => simp [qpReplaceHexUpper, hc]

theorem removeEqCRLF_cons_ne (c : Char) (hc : c ≠ '=') (l : List Char) :
    removeEqCRLF (c :: l) = c :: removeEqCRLF l := by
  cases l with
  | nil => simp [removeEqCRLF, hc]
  | cons a t =>
    cases t with
    | nil => simp [removeEqCRLF, hc]
    | cons b u => simp [removeEqCRLF, hc]

theorem removeEqLF_cons_ne (c : Char) (hc : c ≠ '=') (l : List Char) :
    removeEqLF (c :: l) = c :: removeEqLF l := by
  cases l with
  | nil => simp [removeEqLF, hc]
  | cons a t => simp [removeEqLF, hc]

theorem qpReplaceHexUpper_append_escape (p r : List Char) (c1 c2 : Char)
    (hp : '=' ∉ p) (h1 : isUpperHexDigit c1 = true) (h2 : isUpperHexDigit c2 = true) :
    qpReplaceHexUpper (p ++ '=' :: c1 :: c2 :: r)
      = p ++ hexPairChar c1 c2 :: qpReplaceHexUpper r := by
  induction p with
  | nil => simp [qpReplaceHexUpper, h1, h2]
  | cons c t ih =>
    have hc : c ≠ '=' := fun h => hp (h ▸ List.mem_cons_self c t)
    rw [List.cons_append, qpReplaceHexUpper_cons_ne c hc,
      ih (fun h => hp (List.mem_cons_of_mem c h))]
    rfl

theorem qpReplaceHexUpper_nonescape (c1 c2 : Char) (r : List Char)
    (h : ¬(isUpperHexDigit c1 = true ∧ isUpperHexDigit c2 = true)) :
    qpReplaceHexUpper ('=' :: c1 :: c2 :: r) = '=' :: qpReplaceHexUpper (c1 :: c2 :: r) := by
  have : (isUpperHexDigit c1 && isUpperHexDigit c2) = false := by
    cases hc1 : isUpperHexDigit c1 <;> cases hc2 : isUpperHexDigit c2 <;> simp_all
  simp [qpReplaceHexUpper, this]

theorem removeEqCRLF_append_soft (p r : List Char) (hp : '=' ∉ p) :
    removeEqCRLF (p ++ '=' :: '\r' :: '\n' :: r) = p ++ removeEqCRLF r := by
  induction p with
  | nil => simp [removeEqCRLF]
  | cons c t ih =>
    have hc : c ≠ '=' := fun h => hp (h ▸ List.mem_cons_self c t)
    rw [List.cons_append, removeEqCRLF_cons_ne c hc,
      ih (fun h => hp (List.mem_cons_of_mem c h))]
    rfl

theorem removeEqLF_append_soft (p r : List Char) (hp : '=' ∉ p) :
    removeEqLF (p ++ '=' :: '\n' :: r) = p ++ removeEqLF r := by
  induction p with
  | nil => simp [removeEqLF]
  | cons c t ih =>
    have hc : c ≠ '=' := fun h => hp (h ▸ List.mem_cons_self c t)
    rw [List.cons_append, removeEqLF_cons_ne c hc,
      ih (fun h => hp (List.mem_cons_of_mem c h))]
    rfl

/-- C7 (amended): the decoder replaces each occurrence of `=` followed by two
*upper-case* hex digits with the corresponding byte and removes the soft line
breaks, with the escape-replacement pass running before the two soft-break
removal passes; escapes with a lower-case digit are left intact (see the
counterexample). -/
theorem decodeQuotedPrintable_amended_spec :
    (∀ s : String, decodeQuotedPrintable s
        = ⟨removeEqLF (removeEqCRLF (qpReplaceHexUpper s.data))⟩)
    ∧ (∀ (p r : List Char) (c1 c2 : Char), '=' ∉ p →
        isUpperHexDigit c1 = true → isUpperHexDigit c2 = true →
        qpReplaceHexUpper (p ++ '=' :: c1 :: c2 :: r)
          = p ++ hexPairChar c1 c2 :: qpReplaceHexUpper r)
    ∧ (∀ (c1 c2 : Char) (r : List Char),
        ¬(isUpperHexDigit c1 = true ∧ isUpperHexDigit c2 = true) →
        qpReplaceHexUpper ('=' :: c1 :: c2 :: r)
          = '=' :: qpReplaceHexUpper (c1 :: c2 :: r))
    ∧ (∀ (p r : List Char), '=' ∉ p →
        removeEqCRLF (p ++ '=' :: '\r' :: '\n' :: r) = p ++ removeEqCRLF r)
    ∧ (∀ (p r : List Char), '=' ∉ p →
        removeEqLF (p ++ '=' :: '\n' :: r) = p ++ removeEqLF r) :=
  ⟨fun _ => rfl, qpReplaceHexUpper_append_escape, qpReplaceHexUpper_nonescape,
    removeEqCRLF_append_soft, removeEqLF_append_soft⟩

/-- Witness for C7 (amended): the laws evaluated at concrete inputs. -/
theorem decodeQuotedPrintable_amended_witness :
    qpReplaceHexUpper (['a'] ++ '=' :: '4' :: '1' :: ['b'])
        = ['a'] ++ hexPairChar '4' '1' :: qpReplaceHexUpper ['b']
    ∧ qpReplaceHexUpper ('=' :: '3' :: 'd' :: [])
        = '=' :: qpReplaceHexUpper ('3' :: 'd' :: [])
    ∧ removeEqCRLF (['x'] ++ '=' :: '\r' :: '\n' :: ['y']) = ['x'] ++ removeEqCRLF ['y']
    ∧ removeEqLF (['x'] ++ '=' :: '\n' :: ['y']) = ['x'] ++ removeEqLF ['y'] :=
  ⟨decodeQuotedPrintable_amended_spec.2.1 ['a'] ['b'] '4' '1' (by decide) (by decide)
      (by decide),
   decodeQuotedPrintable_amended_spec.2.2.1 '3' 'd' [] (by decide),
   decodeQuotedPrintable_amended_spec.2.2.2.1 ['x'] ['y'] (by decide),
   decodeQuotedPrintable_amended_spec.2.2.2.2 ['x'] ['y'] (by decide)⟩

/-- Counterexample for C7 as stated: `=3d` is an `=` followed by two hex
digits, so the claimed decoding maps it to `=`; the source decoder leaves it
unchanged because its character class accepts upper-case digits only. -/
theorem decodeQuotedPrintable_lowercase_counterexample :
    decodeQuotedPrintable "=3d" = "=3d"
    ∧ decodeQuotedPrintableClaimed "=3d" = "="
    ∧ decodeQuotedPrintable "=3d" ≠ decodeQuotedPrintableClaimed "=3d" := by
  refine ⟨rfl, rfl, ?_⟩
  decide

/-! ## C10: forwarding-destination lookup precedence -/

/-- C10 (amended): the lookup equals the priority-list reading: the first
key among [exact recipient; `*@domain` and the wildcards only when the text
after the first `@` is nonempty; `*@*.base` only when the domain has a dot;
`*`] whose value is truthy decides the result, taking the first element of
array values (`none` for the empty array). -/
theorem findForwardingDestination_precedence (r : String) (m : EmailMapping) :
    findForwardingDestination r m = specFindDest r m := by
  unfold findForwardingDestination specFindDest candidateKeys
  cases hd : domainOf r with
  | none =>
    cases h1 : lookupTruthy m r <;> simp [List.findSome?_cons, h1]
  | some d =>
    by_cases hde : d = []
    · cases h1 : lookupTruthy m r <;> simp [List.findSome?_cons, h1, hde]
    · cases hdot : d.contains '.' with
    | true =>
      have hmem : ('.' : Char) ∈ d := by
        have h := hdot; simp only [List.contains, List.elem_eq_mem,
          decide_eq_true_eq] at h; exact h
      cases h1 : lookupTruthy m r with
      | some v => simp [List.findSome?_cons, h1, hde, hdot, hmem]
      | none =>
        cases h2 : lookupTruthy m ("*@" ++ (⟨d⟩ : String)) with
        | some v => simp [List.findSome?_cons, h1, hde, hdot, hmem, h2]
        | none =>
          cases h3 : lookupTruthy m ("*@*." ++ (⟨baseDomainOf d⟩ : String)) with
          | some v => simp [List.findSome?_cons, h1, hde, hdot, hmem, h2, h3]
          | none =>
            cases h4 : lookupTruthy m "*" <;>
              simp [List.findSome?_cons, h1, hde, hdot, hmem, h2, h3, h4]
    | false =>
      have hmem : ('.' : Char) ∉ d := by
        have h := hdot; simp only [List.contains, List.elem_eq_mem,
          decide_eq_false_iff_not] at h; exact h
      cases h1 : lookupTruthy m r with
      | some v => simp [List.findSome?_cons, h1, hde, hdot, hmem]
      | none =>
        cases h2 : lookupTruthy m ("*@" ++ (⟨d⟩ : String)) with
        | some v => simp [List.findSome?_cons, h1, hde, hdot, hmem, h2]
        | none =>
          cases h4 : lookupTruthy m "*" <;>
            simp [List.findSome?_cons, h1, hde, hdot, hmem, h2, h4]

/-- Counterexample for C10 as stated: the recipient `"user@"` contains `@`
and the mapping has the catch-all key `*`, so the claimed precedence ends at
the catch-all; the source returns `undefined` because the text after `@` is
empty (`!recipientDomain` fires before any wildcard is consulted). -/
theorem findForwardingDestination_empty_domain_counterexample :
    findForwardingDestination "user@" [("*", MapVal.str "x@y")] = none
    ∧ "user@".data.contains '@' = true
    ∧ lookupTruthy [("*", MapVal.str "x@y")] "*" = some (MapVal.str "x@y") := by
  refine ⟨rfl, by decide, rfl⟩

/-! ## C5: date fallback -/

/-- C5 (code bug): a present but unparseable `Date` header yields an Invalid
Date, not the current time: `new Date(string)` never throws, so the
`try`/`catch` of lines 142-146 cannot restore the current-time fallback.
The runtime's date parser `pd` is arbitrary subject to rejecting the
header value. -/
theorem parseS3Email_unparseable_date (pd : String → Option Int) (now : Int)
    (hpd : pd "Blursday 99" = none) :
    (parseS3Email pd now c5DateEmail none).date = JsDate.invalid
    ∧ ∀ t : Int, JsDate.invalid ≠ JsDate.valid t := by
  constructor
  · have step : (parseS3Email pd now c5DateEmail none).date
        = match pd "Blursday 99" with
          | some t => JsDate.valid t
          | none => JsDate.invalid := rfl
    rw [step, hpd]
  · intro t h
    cases h

/-- Witness for C5: a runtime that parses no date string at all. -/
theorem parseS3Email_unparseable_date_witness :
    (parseS3Email (fun _ => none) 7 c5DateEmail none).date = JsDate.invalid :=
  (parseS3Email_unparseable_date (fun _ => none) 7 rfl).1

/-! ## C6: absent versus empty body fields -/

/-- Counterexample for C6 as stated: an email with zero `text/html`
candidates comes back with `htmlBody = some ""` (the empty-string sentinel),
not with the absent variant the claim requires. -/
theorem parseS3Email_absent_vs_empty_counterexample :
    (parseS3Email (fun _ => none) 0 c6Email none).htmlBody = some ""
    ∧ (some "" : Option String) ≠ none
    ∧ (parseS3Email (fun _ => none) 0 c6Email none).textBody = some "hello" := by
  refine ⟨rfl, by decide, rfl⟩

/-- C6 (amended): `textBody` and `htmlBody` are always present (the source
initialises them to `''` and always returns them), so "no HTML part" is not
distinguishable from "empty HTML part"; `attachments`, by contrast, is
absent rather than an empty list whenever no attachment was found. -/
theorem parseS3Email_sentinel_fields (pd : String → Option Int) (now : Int)
    (buf : String) (kp : Option (List String)) :
    (parseS3Email pd now buf kp).textBody.isSome = true
    ∧ (parseS3Email pd now buf kp).htmlBody.isSome = true
    ∧ ((parseS3Email pd now buf kp).attachments = none
        ∨ ∃ l, (parseS3Email pd now buf kp).attachments = some l ∧ l ≠ []) := by
  refine ⟨rfl, rfl, ?_⟩
  show (if (parseBodiesOf buf.data).attachments.length > 0
      then some (parseBodiesOf buf.data).attachments else none) = none ∨ _
  by_cases h : (parseBodiesOf buf.data).attachments.length > 0
  · right
    refine ⟨(parseBodiesOf buf.data).attachments, ?_, ?_⟩
    · show (if (parseBodiesOf buf.data).attachments.length > 0
          then some (parseBodiesOf buf.data).attachments else none) = _
      rw [if_pos h]
    · intro heq
      rw [heq] at h
      simp at h
  · left
    rw [if_neg h]

/-! ## C2: boundary splitting is not line-anchored -/

/-- C2 (code bug evidence): the input's only text payload reads `abc--bdef`
with `--b` in the middle of a line; a line-anchored splitter would keep it
intact, but the source splits on every substring occurrence
(`rawEmail.split("--" + boundary)`), so the parsed text body is cut to
`abc`. -/
theorem parseS3Email_substring_boundary_split :
    (parseS3Email (fun _ => none) 0 c2Email none).textBody = some "abc"
    ∧ containsSub "abc--bdef".data c2Email.data = true
    ∧ (some "abc" : Option String) ≠ some "abc--bdef" := by
  refine ⟨rfl, by decide, by decide⟩

/-! ## C4: depth behaviour of the multipart walk -/

set_option maxRecDepth 4000 in
/-- Counterexample for C4 as stated: a depth-3 input (well inside the claimed
limit of 10) whose innermost `text/plain` leaf reads `deep text`.  The
content is present in the input but appears in no field of the result: it is
neither recursed into nor preserved as an opaque leaf part or attachment. -/
theorem parseS3Email_depth3_counterexample :
    containsSub "deep text".data c4Email.data = true
    ∧ (parseS3Email (fun _ => none) 0 c4Email none).textBody = some ""
    ∧ (parseS3Email (fun _ => none) 0 c4Email none).htmlBody = some ""
    ∧ (parseS3Email (fun _ => none) 0 c4Email none).attachments = none := by
  refine ⟨by decide, rfl, rfl, rfl⟩

theorem isPrefixOf_false_of_diff (com : List Char) (a b : Char) (as bs : List Char) :
    ∀ ct : List Char, a ≠ b → (com ++ a :: as).isPrefixOf ct = true →
      (com ++ b :: bs).isPrefixOf ct = false := by
  induction com with
  | nil =>
    intro ct hne h
    cases ct with
    | nil => simp [List.isPrefixOf] at h
    | cons c cs =>
      simp only [List.nil_append, List.isPrefixOf, Bool.and_eq_true, beq_iff_eq] at h
      have hbc : (b == c) = false := by
        rw [← h.1]
        exact beq_eq_false_iff_ne.mpr (Ne.symm hne)
      simp [List.isPrefixOf, hbc]
  | cons x xs ih =>
    intro ct hne h
    cases ct with
    | nil => simp [List.isPrefixOf] at h
    | cons c cs =>
      simp only [List.cons_append, List.isPrefixOf, Bool.and_eq_true] at h
      obtain ⟨hx, h2⟩ := h
      simp only [List.cons_append, List.isPrefixOf, hx, Bool.true_and]
      exact ih cs hne h2

theorem multipart_not_textplain (ct : List Char)
    (h : "multipart/".data.isPrefixOf ct = true) :
    "text/plain".data.isPrefixOf ct = false :=
  isPrefixOf_false_of_diff [] 'm' 't' "ultipart/".data "ext/plain".data ct
    (by decide) h

theorem multipart_not_texthtml (ct : List Char)
    (h : "multipart/".data.isPrefixOf ct = true) :
    "text/html".data.isPrefixOf ct = false :=
  isPrefixOf_false_of_diff [] 'm' 't' "ultipart/".data "ext/html".data ct
    (by decide) h

theorem multipart_not_image (ct : List Char)
    (h : "multipart/".data.isPrefixOf ct = true) :
    "image/".data.isPrefixOf ct = false :=
  isPrefixOf_false_of_diff [] 'm' 'i' "ultipart/".data "mage/".data ct
    (by decide) h

set_option maxRecDepth 4000 in
/-- C4 (amended): the parser is total by construction (every embedded
function is a total Lean function), and multipart splitting reaches at most
two levels; a part whose own media type is still `multipart/*` (and which is
not attachment-classified) is simply dropped by `processPart` — it
contributes nothing, rather than being recursed into or kept as one opaque
leaf. -/
theorem processPart_deep_multipart_ignored (st : PState) (part : List Char)
    (hct : "multipart/".data.isPrefixOf (partContentTypeOf part) = true)
    (hnapp : containsSub "application/".data (partContentTypeOf part) = false)
    (hatt : (extractContentDisposition part).isAttachment = false)
    (hfn : (extractContentDisposition part).filename = none) :
    processPart st part = st := by
  have h1 := multipart_not_textplain _ hct
  have h2 := multipart_not_texthtml _ hct
  have h3 := multipart_not_image _ hct
  unfold processPart
  cases hpc : partContent part with
  | none => rfl
  | some content0 =>
    by_cases hc0 : content0 = []
    · simp [hpc, hc0]
    · simp [hpc, hc0, h1, h2, h3, hatt, hfn, hnapp]

set_option maxRecDepth 4000 in
/-- Witness for C4 (amended): the second-level piece of the depth-3 email is
dropped whole by `processPart`. -/
theorem processPart_deep_multipart_ignored_witness :
    processPart ⟨[], [], []⟩ c4DeepPart = ⟨[], [], []⟩ :=
  processPart_deep_multipart_ignored ⟨[], [], []⟩ c4DeepPart
    (by decide) (by decide) (by decide) (by decide)

/-! ## C8: body concatenation separators -/

set_option maxRecDepth 4000 in
/-- Counterexample for C8 as stated: two HTML leaves concatenate with a
single `\n`, not with the blank line the claim requires; the text/plain
policy (shown alongside) does use the blank line. -/
theorem parseS3Email_html_separator_counterexample :
    (parseS3Email (fun _ => none) 0 c8HtmlEmail none).htmlBody
      = some "<p>one</p>\n<p>two</p>"
    ∧ (parseS3Email (fun _ => none) 0 c8TextEmail none).textBody = some "one\n\ntwo"
    ∧ (some "<p>one</p>\n<p>two</p>" : Option String)
      ≠ some "<p>one</p>\n\n<p>two</p>" := by
  refine ⟨rfl, rfl, by decide⟩

theorem texthtml_not_textplain (ct : List Char)
    (h : "text/html".data.isPrefixOf ct = true) :
    "text/plain".data.isPrefixOf ct = false :=
  isPrefixOf_false_of_diff "text/".data 'h' 'p' "tml".data "lain".data ct
    (by decide) h

/-- C8 (amended): when a non-attachment `text/html` part with nonempty
decoded content is appended to an already nonempty `htmlBody`, the separator
is one newline; the same situation for `text/plain` and `textBody` uses a
blank line (two newlines) — the separator policies differ. -/
theorem processPart_separator_policy :
    (∀ (st : PState) (part content0 : List Char),
      "text/html".data.isPrefixOf (partContentTypeOf part) = true →
      (extractContentDisposition part).isAttachment = false →
      partContent part = some content0 → content0 ≠ [] →
      jsTrimL (decodeTextContent (partEncodingOf part) (jsTrimL content0)) ≠ [] →
      st.htmlBody ≠ [] →
      (processPart st part).htmlBody
        = st.htmlBody ++ '\n' :: decodeTextContent (partEncodingOf part) (jsTrimL content0))
    ∧ (∀ (st : PState) (part content0 : List Char),
      "text/plain".data.isPrefixOf (partContentTypeOf part) = true →
      (extractContentDisposition part).isAttachment = false →
      partContent part = some content0 → content0 ≠ [] →
      jsTrimL (decodeTextContent (partEncodingOf part) (jsTrimL content0)) ≠ [] →
      st.textBody ≠ [] →
      (processPart st part).textBody
        = st.textBody ++ '\n' :: '\n' ::
            decodeTextContent (partEncodingOf part) (jsTrimL content0)) := by
  constructor
  · intro st part c0 hct hatt hpc hc0 hdec hhb
    have h1 := texthtml_not_textplain _ hct
    unfold processPart
    simp [hpc, hc0, h1, hct, hatt, hdec, hhb]
  · intro st part c0 hct hatt hpc hc0 hdec htb
    unfold processPart
    simp [hpc, hc0, hct, hatt, hdec, htb]

set_option maxRecDepth 4000 in
/-- Witness for C8 (amended): both separator laws applied to concrete leaf
parts and nonempty accumulated bodies. -/
theorem processPart_separator_policy_witness :
    (processPart ⟨"t".data, "<p>one</p>".data, []⟩ c8WitnessPart).htmlBody
      = "<p>one</p>".data ++ '\n' ::
          decodeTextContent (partEncodingOf c8WitnessPart) (jsTrimL "<p>two</p>".data)
    ∧ (processPart ⟨"one".data, [], []⟩ c8WitnessPartT).textBody
      = "one".data ++ '\n' :: '\n' ::
          decodeTextContent (partEncodingOf c8WitnessPartT) (jsTrimL "two".data) :=
  ⟨processPart_separator_policy.1 ⟨"t".data, "<p>one</p>".data, []⟩ c8WitnessPart
      "<p>two</p>".data (by decide) (by decide) (by decide) (by decide) (by decide)
      (by decide),
   processPart_separator_policy.2 ⟨"one".data, [], []⟩ c8WitnessPartT
      "two".data (by decide) (by decide) (by decide) (by decide) (by decide)
      (by decide)⟩

/-! ## C3: boundary freshness -/

set_option maxRecDepth 8000 in
/-- C3 (code bug evidence): the builder chooses its boundary from the random
suffix alone (lines 606-608) — there is no check of the original bytes and no
regeneration.  With suffix `abc123` the chosen token already occurs inside
the original, and the output still declares exactly that token as its
multipart boundary. -/
theorem formatRawForwardedEmail_boundary_collision :
    containsSub (forwardBoundaryOf "abc123") c3Email.data = true
    ∧ containsSub
        ("Content-Type: multipart/mixed; boundary=\"----=_ForwardBoundary_abc123\"".data)
        (formatRawForwardedEmail c3Email "o@x.com" "f@y.com" "abc123" "zzz999" "ND").data
      = true := by
  refine ⟨by decide, by decide⟩

/-! ## C1: subject handling of the builder (counterexample) -/

set_option maxRecDepth 8000 in
/-- Counterexample for C1 as stated: the original has no `Subject` header
(the spec-modelled header parse confirms it), so the claim requires the
output subject `Fwd: No Subject`; the source scans the whole raw text with
a multiline regex and picks up the body line, producing `Fwd: sneaky`. -/
theorem formatRawForwardedEmail_subject_counterexample :
    getHeaderLineValue "Subject: ".data
        (formatRawForwardedEmail c1Email "o@x.com" "f@y.com" "r1r1" "r2r2" "ND")
      = some "Fwd: sneaky"
    ∧ specSubjectOf c1Email = none
    ∧ (some "Fwd: sneaky" : Option String) ≠ some ("Fwd: " ++ "No Subject") := by
  refine ⟨by decide, rfl, by decide⟩

/-! ## C9: inputs without a blank line -/

theorem splitFirstBlank_eq_none (l : List Char) (h : hasBlankSep l = false) :
    splitFirstBlank l = none := by
  induction l with
  | nil => rfl
  | cons c t ih =>
    unfold hasBlankSep at h
    rw [Bool.or_eq_false_iff] at h
    obtain ⟨h1, h2⟩ := h
    cases hb : blankSepAt (c :: t) with
    | some n => rw [hb] at h1; simp at h1
    | none => simp only [splitFirstBlank, hb, ih h2]

theorem blankSepAt_isSome_append (l e : List Char) (h : (blankSepAt l).isSome = true) :
    (blankSepAt (l ++ e)).isSome = true := by
  unfold blankSepAt at h
  split at h
  · simp [blankSepAt]
  · simp [blankSepAt]
  · simp [blankSepAt]
  · simp [blankSepAt]
  · simp at h

theorem hasBlankSep_append_right (p e : List Char) (h : hasBlankSep p = true) :
    hasBlankSep (p ++ e) = true := by
  induction p with
  | nil => simp [hasBlankSep] at h
  | cons c t ih =>
    unfold hasBlankSep at h
    rw [Bool.or_eq_true] at h
    rw [List.cons_append]
    unfold hasBlankSep
    rw [Bool.or_eq_true]
    rcases h with h | h
    · left
      have := blankSepAt_isSome_append (c :: t) e h
      simpa using this
    · right
      exact ih h

theorem hasBlankSep_append_left (a p : List Char) (h : hasBlankSep p = true) :
    hasBlankSep (a ++ p) = true := by
  induction a with
  | nil => simpa
  | cons c t ih =>
    rw [List.cons_append]
    unfold hasBlankSep
    rw [Bool.or_eq_true]
    right
    exact ih

theorem hasBlankSep_of_SubIn {p l : List Char} (hs : SubIn p l) (h : hasBlankSep l = false) :
    hasBlankSep p = false := by
  obtain ⟨a, b, rfl⟩ := hs
  by_contra hc
  rw [Bool.not_eq_false] at hc
  have : hasBlankSep (a ++ p ++ b) = true := by
    rw [List.append_assoc]
    exact hasBlankSep_append_left a _ (hasBlankSep_append_right p b hc)
  rw [this] at h
  cases h

theorem splitOnStrGo_ne_nil (pat : List Char) (fuel : Nat) (l : List Char) :
    splitOnStrGo pat fuel l ≠ [] := by
  cases fuel with
  | zero => simp [splitOnStrGo]
  | succ fuel =>
    cases l with
    | nil => simp [splitOnStrGo]
    | cons c t =>
      unfold splitOnStrGo
      by_cases hc : pat ≠ [] ∧ pat.isPrefixOf (c :: t)
      · rw [if_pos hc]; simp
      · rw [if_neg hc]
        cases hsp : splitOnStrGo pat fuel t <;> simp

theorem splitOnStrGo_head_lead (pat : List Char) (fuel : Nat) (l : List Char) :
    ∃ rest, l = (splitOnStrGo pat fuel l).headD [] ++ rest := by
  induction fuel generalizing l with
  | zero => exact ⟨[], by simp [splitOnStrGo]⟩
  | succ fuel ih =>
    cases l with
    | nil => exact ⟨[], rfl⟩
    | cons c t =>
      unfold splitOnStrGo
      by_cases hp : pat ≠ [] ∧ pat.isPrefixOf (c :: t)
      · rw [if_pos hp]
        exact ⟨c :: t, rfl⟩
      · rw [if_neg hp]
        obtain ⟨rest, hr⟩ := ih t
        cases hsp : splitOnStrGo pat fuel t with
        | nil => exact absurd hsp (splitOnStrGo_ne_nil pat fuel t)
        | cons hd r =>
          rw [hsp] at hr
          simp only [List.headD_cons] at hr
          refine ⟨rest, ?_⟩
          simp [hr]

theorem splitOnStrGo_pieces_SubIn (pat : List Char) (fuel : Nat) (l : List Char) :
    ∀ p ∈ splitOnStrGo pat fuel l, SubIn p l := by
  induction fuel generalizing l with
  | zero =>
    intro p hp
    simp [splitOnStrGo] at hp
    exact ⟨[], [], by simp [hp]⟩
  | succ fuel ih =>
    intro p hp
    cases l with
    | nil =>
      simp [splitOnStrGo] at hp
      exact ⟨[], [], by simp [hp]⟩
    | cons c t =>
      unfold splitOnStrGo at hp
      by_cases hc : pat ≠ [] ∧ pat.isPrefixOf (c :: t)
      · rw [if_pos hc] at hp
        rcases List.mem_cons.mp hp with rfl | hp2
        · exact ⟨[], c :: t, rfl⟩
        · obtain ⟨a, b, hab⟩ := ih _ p hp2
          refine ⟨(c :: t).take pat.length ++ a, b, ?_⟩
          conv_lhs => rw [← List.take_append_drop pat.length (c :: t)]
          rw [hab]
          simp [List.append_assoc]
      · rw [if_neg hc] at hp
        cases hsp : splitOnStrGo pat fuel t with
        | nil => exact absurd hsp (splitOnStrGo_ne_nil pat fuel t)
        | cons hd r =>
          rw [hsp] at hp
          simp only [List.mem_cons] at hp
          rcases hp with rfl | hp2
          · obtain ⟨rest, hr⟩ := splitOnStrGo_head_lead pat fuel t
            rw [hsp] at hr
            simp only [List.headD_cons] at hr
            exact ⟨[], rest, by simp [hr]⟩
          · obtain ⟨a, b, hab⟩ := ih t p (hsp ▸ List.mem_cons_of_mem hd hp2)
            exact ⟨c :: a, b, by simp [hab]⟩

theorem splitOnStr_pieces_SubIn (pat l : List Char) :
    ∀ p ∈ splitOnStr pat l, SubIn p l :=
  splitOnStrGo_pieces_SubIn pat l.length l

theorem processPart_no_blank (st : PState) (part : List Char)
    (h : hasBlankSep part = false) : processPart st part = st := by
  unfold processPart partContent
  simp [splitFirstBlank_eq_none part h]

theorem foldl_processPart_clean (st : PState) (nps : List (List Char))
    (h : ∀ np ∈ nps, hasBlankSep np = false) :
    nps.foldl (fun st np => if skipPart np then st else processPart st np) st = st := by
  induction nps with
  | nil => rfl
  | cons np rest ih =>
    rw [List.foldl_cons]
    have hstep : (if skipPart np then st else processPart st np) = st := by
      by_cases hs : skipPart np
      · rw [if_pos hs]
      · rw [if_neg hs]
        exact processPart_no_blank st np (h np (List.mem_cons_self np rest))
    rw [hstep]
    exact ih (fun q hq => h q (List.mem_cons_of_mem np hq))

theorem processTopParts_clean (st : PState) (parts : List (List Char))
    (h : ∀ part ∈ parts, hasBlankSep part = false) :
    processTopParts st parts = st := by
  unfold processTopParts
  induction parts with
  | nil => rfl
  | cons part rest ih =>
    rw [List.foldl_cons]
    have hpart := h part (List.mem_cons_self part rest)
    have hstep : (if skipPart part then st
        else match findNestedBoundary part with
        | some nb =>
          (splitOnStr ('-' :: '-' :: nb) part).foldl
            (fun st np => if skipPart np then st else processPart st np) st
        | none => processPart st part) = st := by
      by_cases hs : skipPart part
      · rw [if_pos hs]
      · rw [if_neg hs]
        cases hnb : findNestedBoundary part with
        | some nb =>
          exact foldl_processPart_clean st _ (fun np hnp =>
            hasBlankSep_of_SubIn (splitOnStr_pieces_SubIn _ part np hnp) hpart)
        | none => exact processPart_no_blank st part hpart
    rw [hstep]
    exact ih (fun q hq => h q (List.mem_cons_of_mem part hq))

theorem nonMultipartState_no_blank (raw ct : List Char) (h : hasBlankSep raw = false) :
    nonMultipartState raw ct = ⟨[], [], []⟩ := by
  unfold nonMultipartState
  simp [splitFirstBlank_eq_none raw h]

theorem parseBodiesOf_no_blank (raw : List Char) (h : hasBlankSep raw = false) :
    parseBodiesOf raw = ⟨[], [], []⟩ := by
  unfold parseBodiesOf
  cases hct : findMainContentType raw with
  | none => exact nonMultipartState_no_blank raw _ h
  | some pr =>
    obtain ⟨cap, bo⟩ := pr
    cases bo with
    | none => exact nonMultipartState_no_blank raw _ h
    | some b =>
      exact processTopParts_clean _ _ (fun part hp =>
        hasBlankSep_of_SubIn (splitOnStr_pieces_SubIn _ raw part hp) h)

theorem parseHeadersOf_no_blank (raw : List Char) (h : hasBlankSep raw = false) :
    parseHeadersOf raw = [] := by
  unfold parseHeadersOf
  simp [splitFirstBlank_eq_none raw h]

/-- Counterexample for C9 as stated: with no blank line the parsed bodies
are empty — the non-empty input is not "treated as the body". -/
theorem parseS3Email_no_blank_counterexample :
    (parseS3Email (fun _ => none) 0 "Hello world, no blank line" none).textBody = some ""
    ∧ (parseS3Email (fun _ => none) 0 "Hello world, no blank line" none).htmlBody = some ""
    ∧ ("" : String) ≠ "Hello world, no blank line" := by
  refine ⟨rfl, rfl, by decide⟩

/-- C9 (amended): for every input with no blank-line separator, parsing does
not fail and returns the empty header map with the documented defaults — but
the returned bodies are empty: the entire input is dropped, not treated as
the body. -/
theorem parseS3Email_no_blank_line (raw : String) (kp : Option (List String))
    (pd : String → Option Int) (now : Int) (h : hasBlankSep raw.data = false) :
    (parseS3Email pd now raw kp).headers = []
    ∧ (parseS3Email pd now raw kp).fromAddr = "unknown@example.com"
    ∧ (parseS3Email pd now raw kp).subject = "No Subject"
    ∧ (parseS3Email pd now raw kp).textBody = some ""
    ∧ (parseS3Email pd now raw kp).htmlBody = some ""
    ∧ (parseS3Email pd now raw kp).attachments = none
    ∧ (parseS3Email pd now raw kp).date = JsDate.valid now := by
  have hh : parseHeadersOf raw.data = [] := parseHeadersOf_no_blank _ h
  have hb : parseBodiesOf raw.data = ⟨[], [], []⟩ := parseBodiesOf_no_blank _ h
  refine ⟨hh, ?_, ?_, ?_, ?_, ?_, ?_⟩
  · show (jsOrStr (jsObjGet (parseHeadersOf raw.data) "From")
      (jsObjGet (parseHeadersOf raw.data) "from")).getD "unknown@example.com" = _
    rw [hh]
    rfl
  · show (jsOrStr (jsObjGet (parseHeadersOf raw.data) "Subject")
      (jsObjGet (parseHeadersOf raw.data) "subject")).getD "No Subject" = _
    rw [hh]
    rfl
  · show some (⟨(parseBodiesOf raw.data).textBody⟩ : String) = some ""
    rw [hb]
  · show some (⟨(parseBodiesOf raw.data).htmlBody⟩ : String) = some ""
    rw [hb]
  · show (if (parseBodiesOf raw.data).attachments.length > 0
      then some (parseBodiesOf raw.data).attachments else none) = none
    rw [hb]
    rfl
  · show parseDateField pd now (parseHeadersOf raw.data) = JsDate.valid now
    rw [hh]
    rfl

/-- Witness for C9 (amended) on a concrete blank-line-free input. -/
theorem parseS3Email_no_blank_line_witness :
    (parseS3Email (fun _ => none) 3 "Hello world, no blank line" none).headers = []
    ∧ (parseS3Email (fun _ => none) 3 "Hello world, no blank line" none).fromAddr
        = "unknown@example.com"
    ∧ (parseS3Email (fun _ => none) 3 "Hello world, no blank line" none).subject
        = "No Subject"
    ∧ (parseS3Email (fun _ => none) 3 "Hello world, no blank line" none).textBody = some ""
    ∧ (parseS3Email (fun _ => none) 3 "Hello world, no blank line" none).htmlBody = some ""
    ∧ (parseS3Email (fun _ => none) 3 "Hello world, no blank line" none).attachments = none
    ∧ (parseS3Email (fun _ => none) 3 "Hello world, no blank line" none).date
        = JsDate.valid 3 :=
  parseS3Email_no_blank_line "Hello world, no blank line" none (fun _ => none) 3 (by decide)

end SESFwd

namespace SESFwd

theorem chunksBy_ne_nil {α : Type} (p : α → Bool) (l : List α) : chunksBy p l ≠ [] := by
  cases l with
  | nil => simp [chunksBy]
  | cons c t =>
    unfold chunksBy
    by_cases hp : p c = true
    · rw [if_pos hp]; simp
    · rw [if_neg hp]
      cases chunksBy p t <;> simp

theorem chunksBy_all_false {α : Type} (p : α → Bool) (a : List α)
    (ha : ∀ x ∈ a, p x = false) : chunksBy p a = [a] := by
  induction a with
  | nil => rfl
  | cons c t ih =>
    have hc : p c = false := ha c (List.mem_cons_self c t)
    have ht := ih (fun x hx => ha x (List.mem_cons_of_mem c hx))
    simp [chunksBy, hc, ht]

theorem chunksBy_append_sep {α : Type} (p : α → Bool) (a b : List α) (s : α)
    (ha : ∀ x ∈ a, p x = false) (hs : p s = true) :
    chunksBy p (a ++ s :: b) = a :: chunksBy p b := by
  induction a with
  | nil => simp [chunksBy, hs]
  | cons c t ih =>
    have hc : p c = false := ha c (List.mem_cons_self c t)
    have ht := ih (fun x hx => ha x (List.mem_cons_of_mem c hx))
    rw [List.cons_append]
    simp [chunksBy, hc, ht]

theorem chunksBy_pieces_nosep {α : Type} (p : α → Bool) (l : List α) :
    ∀ x ∈ chunksBy p l, ∀ e ∈ x, p e = false := by
  induction l with
  | nil =>
    intro x hx
    simp [chunksBy] at hx
    subst hx
    intro e he
    cases he
  | cons c t ih =>
    intro x hx e he
    unfold chunksBy at hx
    by_cases hc : p c = true
    · rw [if_pos hc] at hx
      rcases List.mem_cons.mp hx with rfl | hx2
      · cases he
      · exact ih x hx2 e he
    · rw [if_neg hc] at hx
      cases hsp : chunksBy p t with
      | nil =>
        rw [hsp] at hx
        simp at hx
        subst hx
        rcases List.mem_cons.mp he with rfl | he2
        · simpa using hc
        · cases he2
      | cons hd r =>
        rw [hsp] at hx
        rcases List.mem_cons.mp hx with rfl | hx2
        · rcases List.mem_cons.mp he with rfl | he2
          · simpa using hc
          · exact ih hd (hsp ▸ List.mem_cons_self hd r) e he2
        · exact ih x (hsp ▸ List.mem_cons_of_mem hd hx2) e he

theorem joinNL_cons_cons (x : List Char) (y : List (List Char)) (hy : y ≠ []) :
    joinNL (x :: y) = x ++ '\n' :: joinNL y := by
  cases y with
  | nil => exact absurd rfl hy
  | cons a u => rfl

theorem joinNL_splitNL (l : List Char) : joinNL (splitNL l) = l := by
  induction l with
  | nil => rfl
  | cons c t ih =>
    by_cases hc : c = '\n'
    · subst hc
      have h1 : splitNL ('\n' :: t) = [] :: splitNL t := by
        simp [splitNL, splitBy, chunksBy]
      rw [h1, joinNL_cons_cons [] (splitNL t) (chunksBy_ne_nil _ t), List.nil_append]
      rw [show joinNL (splitNL t) = t from ih]
    · cases hsp : splitNL t with
      | nil => exact absurd hsp (chunksBy_ne_nil _ t)
      | cons hd r =>
        have hsp2 : chunksBy (fun x => decide (x = '\n')) t = hd :: r := hsp
        have h1 : splitNL (c :: t) = (c :: hd) :: r := by
          simp [splitNL, splitBy, chunksBy, hc, hsp2]
        rw [h1]
        have h2 : joinNL ((c :: hd) :: r) = c :: joinNL (hd :: r) := by
          cases r with
          | nil => rfl
          | cons a u => rfl
        rw [h2, ← hsp, ih]

theorem splitNL_joinNL (doc : List (List Char))
    (hdoc : ∀ l ∈ doc, ∀ c ∈ l, c ≠ '\n') (hne : doc ≠ []) :
    splitNL (joinNL doc) = doc := by
  induction doc with
  | nil => exact absurd rfl hne
  | cons x t ih =>
    cases t with
    | nil =>
      show splitNL (joinNL [x]) = [x]
      have : joinNL [x] = x := rfl
      rw [this]
      exact chunksBy_all_false _ x (fun c hc => by
        simp [hdoc x (List.mem_cons_self x []) c hc])
    | cons y u =>
      rw [joinNL_cons_cons x (y :: u) (by simp)]
      have hstep : splitNL (x ++ '\n' :: joinNL (y :: u))
          = x :: splitNL (joinNL (y :: u)) :=
        chunksBy_append_sep _ x _ '\n'
          (fun c hc => by simp [hdoc x (List.mem_cons_self x (y :: u)) c hc])
          (by simp)
      rw [hstep, ih (fun l hl c hc => hdoc l (List.mem_cons_of_mem x hl) c hc) (by simp)]



theorem jsTrimL_subset (l : List Char) : ∀ c ∈ jsTrimL l, c ∈ l := by
  intro c hc
  unfold jsTrimL at hc
  rw [List.mem_reverse] at hc
  have h1 := (List.dropWhile_sublist isJsWhitespace).subset hc
  rw [List.mem_reverse] at h1
  exact (List.dropWhile_sublist isJsWhitespace).subset h1

theorem anchorLines_clean (raw : List Char) :
    ∀ line ∈ anchorLines raw, ∀ c ∈ line, c ≠ '\n' ∧ c ≠ '\r' := by
  intro line hl c hc
  have := chunksBy_pieces_nosep (fun c => c = '\n' || c = '\r') raw line hl c hc
  constructor <;> intro h <;> subst h <;> simp at this

theorem firstAnchorValue_clean (key raw v : List Char)
    (h : firstAnchorValue key raw = some v) : ∀ c ∈ v, c ≠ '\n' ∧ c ≠ '\r' := by
  unfold firstAnchorValue at h
  obtain ⟨line, hline, hsome⟩ := List.exists_of_findSome?_eq_some h
  by_cases hp : ciIsPrefixOf key line = true
  · rw [if_pos hp] at hsome
    injection hsome with hv
    subst hv
    intro c hc
    have h1 : c ∈ line.drop key.length :=
      (List.dropWhile_sublist isJsWhitespace).subset hc
    exact anchorLines_clean raw line hline c ((List.drop_sublist _ _).subset h1)
  · rw [if_neg hp] at hsome
    cases hsome

theorem originalSubjectOf_clean (raw : List Char) :
    ∀ c ∈ originalSubjectOf raw, c ≠ '\n' ∧ c ≠ '\r' := by
  unfold originalSubjectOf
  cases h : firstAnchorValue "subject:".data raw with
  | some v =>
    intro c hc
    exact firstAnchorValue_clean _ _ _ h c (jsTrimL_subset v c hc)
  | none => decide

theorem originalFromOf_clean (raw : List Char) :
    ∀ c ∈ originalFromOf raw, c ≠ '\n' ∧ c ≠ '\r' := by
  unfold originalFromOf
  cases h : firstAnchorValue "from:".data raw with
  | some v =>
    intro c hc
    exact firstAnchorValue_clean _ _ _ h c (jsTrimL_subset v c hc)
  | none => decide

theorem originalDateOf_clean (raw : List Char) (nowUTC : String)
    (hnow : ∀ c ∈ nowUTC.data, c ≠ '\n' ∧ c ≠ '\r') :
    ∀ c ∈ originalDateOf raw nowUTC, c ≠ '\n' ∧ c ≠ '\r' := by
  unfold originalDateOf
  cases h : firstAnchorValue "date:".data raw with
  | some v =>
    intro c hc
    exact firstAnchorValue_clean _ _ _ h c (jsTrimL_subset v c hc)
  | none => exact hnow

theorem replyToOf_clean (raw : List Char) :
    ∀ c ∈ replyToOf raw, c ≠ '\n' ∧ c ≠ '\r' := by
  unfold replyToOf
  cases h : firstAnchorValue "reply-to:".data raw with
  | some v =>
    intro c hc
    exact firstAnchorValue_clean _ _ _ h c (jsTrimL_subset v c hc)
  | none => exact originalFromOf_clean raw

theorem isDelimLine_false_of_head (b l : List Char) (h : l.head? ≠ some '-') :
    isDelimLine b l = false := by
  unfold isDelimLine dashdash
  rcases l with _ | ⟨c, t⟩
  · simp
  · have hc : c ≠ '-' := fun he => h (by simp [he])
    simp [hc]

theorem forwardDelim_eq (r1 : String) :
    dashdash (forwardBoundaryOf r1) = "------=_ForwardBoundary_".data ++ r1.data := rfl

theorem isDelimLine_false_of_take9 (r1 : String) (l : List Char)
    (h : l.take 9 ≠ "------=_F".data) :
    isDelimLine (forwardBoundaryOf r1) l = false := by
  unfold isDelimLine
  by_contra hcon
  rw [Bool.not_eq_false, Bool.or_eq_true] at hcon
  apply h
  rcases hcon with hc | hc
  · have he : l = dashdash (forwardBoundaryOf r1) := by
      exact of_decide_eq_true hc
    rw [he, forwardDelim_eq, List.take_append_of_le_length (by decide)]
    decide
  · have he : l = dashdash (forwardBoundaryOf r1) ++ "--".data := by
      exact of_decide_eq_true hc
    rw [he, forwardDelim_eq, List.append_assoc,
      List.take_append_of_le_length (by decide)]
    decide

theorem altDelim_take9 (r2 : String) :
    (dashdash (altBoundaryOf r2)).take 9 = "------=_A".data := by
  have he : dashdash (altBoundaryOf r2) = "------=_AltBoundary_".data ++ r2.data := rfl
  rw [he, List.take_append_of_le_length (by decide)]
  decide

theorem altDelimEnd_take9 (r2 : String) :
    ((dashdash (altBoundaryOf r2)) ++ "--".data).take 9 = "------=_A".data := by
  have he : dashdash (altBoundaryOf r2) = "------=_AltBoundary_".data ++ r2.data := rfl
  rw [he, List.append_assoc, List.take_append_of_le_length (by decide)]
  decide

theorem isRfc_false_of_not_mem (c : List (List Char))
    (h : "Content-Type: message/rfc822".data ∉ c) : isRfcPartChunk c = false := by
  unfold isRfcPartChunk chunkHeaderLines
  by_contra hcon
  rw [Bool.not_eq_false] at hcon
  rw [List.contains, List.elem_eq_mem, decide_eq_true_eq] at hcon
  exact h ((List.takeWhile_sublist _).subset hcon)



theorem splitNL_ne_nil (l : List Char) : splitNL l ≠ [] := chunksBy_ne_nil _ l

theorem joinNL_append (xs ys : List (List Char)) (hx : xs ≠ []) (hy : ys ≠ []) :
    joinNL (xs ++ ys) = joinNL xs ++ '\n' :: joinNL ys := by
  induction xs with
  | nil => exact absurd rfl hx
  | cons x t ih =>
    cases t with
    | nil =>
      cases ys with
      | nil => exact absurd rfl hy
      | cons y u => simp [joinNL]
    | cons x2 t2 =>
      rw [List.cons_append]
      have h1 : joinNL (x :: ((x2 :: t2) ++ ys)) = x ++ '\n' :: joinNL ((x2 :: t2) ++ ys) := by
        rw [joinNL_cons_cons _ _ (by simp)]
      rw [h1, ih (by simp), joinNL_cons_cons x (x2 :: t2) (by simp)]
      simp [List.append_assoc]

set_option maxRecDepth 20000 in
set_option maxHeartbeats 1000000 in
theorem formatRaw_data_plain (raw orig fwd r1 r2 now : String)
    (hhas : (extractPreview raw.data).html = []) :
    (formatRawForwardedEmail raw orig fwd r1 r2 now).data =
      joinNL (frDocOf raw.data orig fwd r1 (frContentPlain raw.data orig now)) := by
  have hlist : frDocOf raw.data orig fwd r1 (frContentPlain raw.data orig now) =
      ("From: ".data ++ orig.data ++ "\r".data) ::
      ("To: ".data ++ fwd.data ++ "\r".data) ::
      ("Reply-To: ".data ++ replyToOf raw.data ++ "\r".data) ::
      ("Subject: Fwd: ".data ++ originalSubjectOf raw.data ++ "\r".data) ::
      ("MIME-Version: 1.0".data ++ "\r".data) ::
      ("Content-Type: multipart/mixed; boundary=\"".data ++ forwardBoundaryOf r1
        ++ "\"".data ++ "\r".data) ::
      "\r".data ::
      dashdash (forwardBoundaryOf r1) ::
      "Content-Type: text/plain; charset=UTF-8".data ::
      "Content-Transfer-Encoding: 7bit".data ::
      [] ::
      "---------- Forwarded message ---------".data ::
      ("From: ".data ++ originalFromOf raw.data) ::
      ("Date: ".data ++ originalDateOf raw.data now) ::
      ("Subject: ".data ++ originalSubjectOf raw.data) ::
      ("To: ".data ++ orig.data) ::
      [] ::
      (splitNL (extractPreview raw.data).text ++
        ([] ::
         "Note: The complete original message is attached for reference.".data ::
         [] ::
         dashdash (forwardBoundaryOf r1) ::
         "Content-Type: message/rfc822".data ::
         "Content-Disposition: attachment; filename=\"original_message.eml\"".data ::
         [] ::
         (splitNL raw.data ++
           ([] :: [dashdash (forwardBoundaryOf r1) ++ "--".data])))) := by
    simp only [frDocOf, frContentPlain, frEnvLines, frPreludeLines, frTrailerLines,
      frRfcLines, List.cons_append, List.nil_append, List.append_assoc]
  rw [hlist]
  have hdata : (formatRawForwardedEmail raw orig fwd r1 r2 now).data =
      ("From: ".data ++ orig.data ++
       "\r\nTo: ".data ++ fwd.data ++
       "\r\nReply-To: ".data ++ replyToOf raw.data ++
       "\r\nSubject: Fwd: ".data ++ originalSubjectOf raw.data ++
       "\r\nMIME-Version: 1.0\r\nContent-Type: multipart/mixed; boundary=\"".data ++
       forwardBoundaryOf r1 ++ "\"\r\n\r\n--".data ++ forwardBoundaryOf r1) ++
      (if (extractPreview raw.data).html ≠ [] then
        "\nContent-Type: multipart/alternative; boundary=\"".data ++ altBoundaryOf r2 ++
        "\"\n\n--".data ++ altBoundaryOf r2 ++
        "\nContent-Type: text/plain; charset=UTF-8\nContent-Transfer-Encoding: 7bit\n\n".data ++
        bannerText (originalFromOf raw.data) (originalDateOf raw.data now)
          (originalSubjectOf raw.data) orig.data (extractPreview raw.data).text ++
        "\n\n--".data ++ altBoundaryOf r2 ++
        "\nContent-Type: text/html; charset=UTF-8\nContent-Transfer-Encoding: 7bit\n\n".data ++
        htmlBanner (originalFromOf raw.data) (originalDateOf raw.data now)
          (originalSubjectOf raw.data) orig.data (extractPreview raw.data).html ++
        "\n\n--".data ++ altBoundaryOf r2 ++ "--".data
      else
        "\nContent-Type: text/plain; charset=UTF-8\nContent-Transfer-Encoding: 7bit\n\n".data ++
        bannerText (originalFromOf raw.data) (originalDateOf raw.data now)
          (originalSubjectOf raw.data) orig.data (extractPreview raw.data).text) ++
      ("\n\n--".data ++ forwardBoundaryOf r1 ++
       "\nContent-Type: message/rfc822\nContent-Disposition: attachment; filename=\"original_message.eml\"\n\n".data ++
       raw.data ++
       "\n\n--".data ++ forwardBoundaryOf r1 ++ "--".data) := rfl
  rw [hdata, if_neg (by simp [hhas])]
  conv_rhs => simp only [joinNL_cons_cons, joinNL_append, joinNL_splitNL, splitNL_ne_nil,
    ne_eq, List.cons_ne_nil, not_false_iff, List.append_eq_nil, false_and, and_false,
    reduceCtorEq, not_false_eq_true, joinNL]
  simp only [bannerText]
  simp only [List.append_assoc, List.cons_append, List.nil_append]
  rfl

set_option maxRecDepth 20000 in
set_option maxHeartbeats 2000000 in
theorem formatRaw_data_html (raw orig fwd r1 r2 now : String)
    (hhas : (extractPreview raw.data).html ≠ []) :
    (formatRawForwardedEmail raw orig fwd r1 r2 now).data =
      joinNL (frDocOf raw.data orig fwd r1 (frContentHtml raw.data orig now r2)) := by
  have hlist : frDocOf raw.data orig fwd r1 (frContentHtml raw.data orig now r2) =
      ("From: ".data ++ orig.data ++ "\r".data) ::
      ("To: ".data ++ fwd.data ++ "\r".data) ::
      ("Reply-To: ".data ++ replyToOf raw.data ++ "\r".data) ::
      ("Subject: Fwd: ".data ++ originalSubjectOf raw.data ++ "\r".data) ::
      ("MIME-Version: 1.0".data ++ "\r".data) ::
      ("Content-Type: multipart/mixed; boundary=\"".data ++ forwardBoundaryOf r1
        ++ "\"".data ++ "\r".data) ::
      "\r".data ::
      dashdash (forwardBoundaryOf r1) ::
      ("Content-Type: multipart/alternative; boundary=\"".data ++ altBoundaryOf r2
        ++ "\"".data) ::
      [] ::
      dashdash (altBoundaryOf r2) ::
      "Content-Type: text/plain; charset=UTF-8".data ::
      "Content-Transfer-Encoding: 7bit".data ::
      [] ::
      "---------- Forwarded message ---------".data ::
      ("From: ".data ++ originalFromOf raw.data) ::
      ("Date: ".data ++ originalDateOf raw.data now) ::
      ("Subject: ".data ++ originalSubjectOf raw.data) ::
      ("To: ".data ++ orig.data) ::
      [] ::
      (splitNL (extractPreview raw.data).text ++
        ([] ::
         "Note: The complete original message is attached for reference.".data ::
         [] ::
         dashdash (altBoundaryOf r2) ::
         "Content-Type: text/html; charset=UTF-8".data ::
         "Content-Transfer-Encoding: 7bit".data ::
         [] ::
         "<div style=\"border-top:1px solid #ccc; margin-top:20px; padding-top:10px;\">".data ::
         "  <p><b>---------- Forwarded message ---------</b><br>".data ::
         ("  <b>From:</b> ".data ++ originalFromOf raw.data ++ "<br>".data) ::
         ("  <b>Date:</b> ".data ++ originalDateOf raw.data now ++ "<br>".data) ::
         ("  <b>Subject:</b> ".data ++ originalSubjectOf raw.data ++ "<br>".data) ::
         ("  <b>To:</b> ".data ++ orig.data ++ "</p>".data) ::
         "</div>".data ::
         [] ::
         (splitNL (extractPreview raw.data).html ++
          ([] ::
           "<p style=\"color: #555; font-style: italic; margin-top: 20px; border-top: 1px solid #eee; padding-top: 10px;\">".data ::
           "  Note: The complete original message is attached for reference.".data ::
           "</p>".data ::
           [] ::
           (dashdash (altBoundaryOf r2) ++ "--".data) ::
           [] ::
           dashdash (forwardBoundaryOf r1) ::
           "Content-Type: message/rfc822".data ::
           "Content-Disposition: attachment; filename=\"original_message.eml\"".data ::
           [] ::
           (splitNL raw.data ++
             ([] :: [dashdash (forwardBoundaryOf r1) ++ "--".data])))))) := by
    simp only [frDocOf, frContentHtml, frEnvLines, frPreludeLines, frTrailerLines,
      frHtmlMidLines, frHtmlTailLines, frRfcLines, List.cons_append, List.nil_append,
      List.append_assoc]
  rw [hlist]
  have hdata : (formatRawForwardedEmail raw orig fwd r1 r2 now).data =
      ("From: ".data ++ orig.data ++
       "\r\nTo: ".data ++ fwd.data ++
       "\r\nReply-To: ".data ++ replyToOf raw.data ++
       "\r\nSubject: Fwd: ".data ++ originalSubjectOf raw.data ++
       "\r\nMIME-Version: 1.0\r\nContent-Type: multipart/mixed; boundary=\"".data ++
       forwardBoundaryOf r1 ++ "\"\r\n\r\n--".data ++ forwardBoundaryOf r1) ++
      (if (extractPreview raw.data).html ≠ [] then
        "\nContent-Type: multipart/alternative; boundary=\"".data ++ altBoundaryOf r2 ++
        "\"\n\n--".data ++ altBoundaryOf r2 ++
        "\nContent-Type: text/plain; charset=UTF-8\nContent-Transfer-Encoding: 7bit\n\n".data ++
        bannerText (originalFromOf raw.data) (originalDateOf raw.data now)
          (originalSubjectOf raw.data) orig.data (extractPreview raw.data).text ++
        "\n\n--".data ++ altBoundaryOf r2 ++
        "\nContent-Type: text/html; charset=UTF-8\nContent-Transfer-Encoding: 7bit\n\n".data ++
        htmlBanner (originalFromOf raw.data) (originalDateOf raw.data now)
          (originalSubjectOf raw.data) orig.data (extractPreview raw.data).html ++
        "\n\n--".data ++ altBoundaryOf r2 ++ "--".data
      else
        "\nContent-Type: text/plain; charset=UTF-8\nContent-Transfer-Encoding: 7bit\n\n".data ++
        bannerText (originalFromOf raw.data) (originalDateOf raw.data now)
          (originalSubjectOf raw.data) orig.data (extractPreview raw.data).text) ++
      ("\n\n--".data ++ forwardBoundaryOf r1 ++
       "\nContent-Type: message/rfc822\nContent-Disposition: attachment; filename=\"original_message.eml\"\n\n".data ++
       raw.data ++
       "\n\n--".data ++ forwardBoundaryOf r1 ++ "--".data) := rfl
  rw [hdata, if_pos hhas]
  conv_rhs => simp only [joinNL_cons_cons, joinNL_append, joinNL_splitNL, splitNL_ne_nil,
    ne_eq, List.cons_ne_nil, not_false_iff, List.append_eq_nil, false_and, and_false,
    reduceCtorEq, not_false_eq_true, joinNL]
  simp only [bannerText, htmlBanner]
  simp only [List.append_assoc, List.cons_append, List.nil_append]
  rfl
theorem ne_nil_of_head (l : List Char) (c : Char) (h : l.head? = some c) : l ≠ [] := by
  intro he
  subst he
  simp at h

theorem noNL_append (a b : List Char) (ha : ∀ c ∈ a, c ≠ '\n') (hb : ∀ c ∈ b, c ≠ '\n') :
    ∀ c ∈ a ++ b, c ≠ '\n' := by
  intro c hc
  rcases List.mem_append.mp hc with h | h
  · exact ha c h
  · exact hb c h

theorem splitNL_noNL (x : List Char) : ∀ l ∈ splitNL x, ∀ c ∈ l, c ≠ '\n' := by
  intro l hl c hc
  have h := chunksBy_pieces_nosep (fun c => decide (c = '\n')) x l hl c hc
  simpa using h

theorem forwardBoundary_noNL (r1 : String) (hr1 : ∀ c ∈ r1.data, c ≠ '\n') :
    ∀ c ∈ forwardBoundaryOf r1, c ≠ '\n' :=
  noNL_append _ _ (by decide) hr1

theorem altBoundary_noNL (r2 : String) (hr2 : ∀ c ∈ r2.data, c ≠ '\n') :
    ∀ c ∈ altBoundaryOf r2, c ≠ '\n' :=
  noNL_append _ _ (by decide) hr2

theorem dashdash_noNL (b : List Char) (hb : ∀ c ∈ b, c ≠ '\n') :
    ∀ c ∈ dashdash b, c ≠ '\n' := by
  intro c hc
  rcases List.mem_cons.mp hc with rfl | hc2
  · decide
  rcases List.mem_cons.mp hc2 with rfl | hc3
  · decide
  · exact hb c hc3

theorem frEnvLines_noNL (raw : List Char) (orig fwd r1 : String)
    (horig : ∀ c ∈ orig.data, c ≠ '\n') (hfwd : ∀ c ∈ fwd.data, c ≠ '\n')
    (hr1 : ∀ c ∈ r1.data, c ≠ '\n') :
    ∀ l ∈ frEnvLines raw orig fwd r1, ∀ c ∈ l, c ≠ '\n' := by
  intro l hl
  simp only [frEnvLines, List.mem_cons, List.not_mem_nil, or_false] at hl
  rcases hl with rfl | rfl | rfl | rfl | rfl | rfl | rfl
  · exact noNL_append _ _ (noNL_append _ _ (by decide) horig) (by decide)
  · exact noNL_append _ _ (noNL_append _ _ (by decide) hfwd) (by decide)
  · exact noNL_append _ _ (noNL_append _ _ (by decide)
      (fun c hc => (replyToOf_clean raw c hc).1)) (by decide)
  · exact noNL_append _ _ (noNL_append _ _ (by decide)
      (fun c hc => (originalSubjectOf_clean raw c hc).1)) (by decide)
  · exact noNL_append _ _ (by decide) (by decide)
  · exact noNL_append _ _ (noNL_append _ _ (noNL_append _ _ (by decide)
      (forwardBoundary_noNL r1 hr1)) (by decide)) (by decide)
  · decide

theorem frPreludeLines_noNL (raw : List Char) (orig now : String)
    (horig : ∀ c ∈ orig.data, c ≠ '\n')
    (hnow : ∀ c ∈ now.data, c ≠ '\n' ∧ c ≠ '\r') :
    ∀ l ∈ frPreludeLines raw orig now, ∀ c ∈ l, c ≠ '\n' := by
  intro l hl
  simp only [frPreludeLines, List.mem_cons, List.not_mem_nil, or_false] at hl
  rcases hl with rfl | rfl | rfl | rfl | rfl | rfl | rfl | rfl | rfl
  · decide
  · decide
  · decide
  · decide
  · exact noNL_append _ _ (by decide) (fun c hc => (originalFromOf_clean raw c hc).1)
  · exact noNL_append _ _ (by decide) (fun c hc => (originalDateOf_clean raw now hnow c hc).1)
  · exact noNL_append _ _ (by decide) (fun c hc => (originalSubjectOf_clean raw c hc).1)
  · exact noNL_append _ _ (by decide) horig
  · decide

theorem frTrailerLines_noNL : ∀ l ∈ frTrailerLines, ∀ c ∈ l, c ≠ '\n' := by decide

theorem frContentPlain_noNL (raw : List Char) (orig now : String)
    (horig : ∀ c ∈ orig.data, c ≠ '\n')
    (hnow : ∀ c ∈ now.data, c ≠ '\n' ∧ c ≠ '\r') :
    ∀ l ∈ frContentPlain raw orig now, ∀ c ∈ l, c ≠ '\n' := by
  intro l hl
  rcases List.mem_append.mp hl with h | h
  · rcases List.mem_append.mp h with h2 | h2
    · exact frPreludeLines_noNL raw orig now horig hnow l h2
    · exact splitNL_noNL _ l h2
  · exact frTrailerLines_noNL l h

theorem frHtmlMidLines_noNL (raw : List Char) (orig now r2 : String)
    (horig : ∀ c ∈ orig.data, c ≠ '\n')
    (hnow : ∀ c ∈ now.data, c ≠ '\n' ∧ c ≠ '\r')
    (hr2 : ∀ c ∈ r2.data, c ≠ '\n') :
    ∀ l ∈ frHtmlMidLines raw orig now r2, ∀ c ∈ l, c ≠ '\n' := by
  intro l hl
  rcases List.mem_append.mp hl with h | h
  · exact frTrailerLines_noNL l h
  · simp only [List.mem_cons, List.not_mem_nil, or_false] at h
    rcases h with rfl | rfl | rfl | rfl | rfl | rfl | rfl | rfl | rfl | rfl | rfl | rfl
    · exact dashdash_noNL _ (altBoundary_noNL r2 hr2)
    · decide
    · decide
    · decide
    · decide
    · decide
    · exact noNL_append _ _ (noNL_append _ _ (by decide)
        (fun c hc => (originalFromOf_clean raw c hc).1)) (by decide)
    · exact noNL_append _ _ (noNL_append _ _ (by decide)
        (fun c hc => (originalDateOf_clean raw now hnow c hc).1)) (by decide)
    · exact noNL_append _ _ (noNL_append _ _ (by decide)
        (fun c hc => (originalSubjectOf_clean raw c hc).1)) (by decide)
    · exact noNL_append _ _ (noNL_append _ _ (by decide) horig) (by decide)
    · decide
    · decide

theorem frHtmlTailLines_noNL (r2 : String) (hr2 : ∀ c ∈ r2.data, c ≠ '\n') :
    ∀ l ∈ frHtmlTailLines r2, ∀ c ∈ l, c ≠ '\n' := by
  intro l hl
  simp only [frHtmlTailLines, List.mem_cons, List.not_mem_nil, or_false] at hl
  rcases hl with rfl | rfl | rfl | rfl | rfl | rfl | rfl
  · decide
  · decide
  · decide
  · decide
  · decide
  · exact noNL_append _ _ (dashdash_noNL _ (altBoundary_noNL r2 hr2)) (by decide)
  · decide

theorem frContentHtml_noNL (raw : List Char) (orig now r2 : String)
    (horig : ∀ c ∈ orig.data, c ≠ '\n')
    (hnow : ∀ c ∈ now.data, c ≠ '\n' ∧ c ≠ '\r')
    (hr2 : ∀ c ∈ r2.data, c ≠ '\n') :
    ∀ l ∈ frContentHtml raw orig now r2, ∀ c ∈ l, c ≠ '\n' := by
  intro l hl
  rcases List.mem_cons.mp hl with rfl | hl2
  · exact noNL_append _ _ (noNL_append _ _ (by decide) (altBoundary_noNL r2 hr2)) (by decide)
  rcases List.mem_cons.mp hl2 with rfl | hl3
  · decide
  rcases List.mem_cons.mp hl3 with rfl | hl4
  · exact dashdash_noNL _ (altBoundary_noNL r2 hr2)
  rcases List.mem_append.mp hl4 with h | h
  · rcases List.mem_append.mp h with h | h
    · rcases List.mem_append.mp h with h | h
      · rcases List.mem_append.mp h with h | h
        · exact frPreludeLines_noNL raw orig now horig hnow l h
        · exact splitNL_noNL _ l h
      · exact frHtmlMidLines_noNL raw orig now r2 horig hnow hr2 l h
    · exact splitNL_noNL _ l h
  · exact frHtmlTailLines_noNL r2 hr2 l h

theorem frRfcLines_noNL (raw : List Char) : ∀ l ∈ frRfcLines raw, ∀ c ∈ l, c ≠ '\n' := by
  intro l hl
  rcases List.mem_cons.mp hl with rfl | hl2
  · decide
  rcases List.mem_cons.mp hl2 with rfl | hl3
  · decide
  rcases List.mem_cons.mp hl3 with rfl | hl4
  · decide
  rcases List.mem_append.mp hl4 with h | h
  · exact splitNL_noNL raw l h
  · rcases List.mem_singleton.mp h with rfl
    decide

theorem frDocOf_noNL (raw : List Char) (orig fwd r1 : String) (content : List (List Char))
    (horig : ∀ c ∈ orig.data, c ≠ '\n') (hfwd : ∀ c ∈ fwd.data, c ≠ '\n')
    (hr1 : ∀ c ∈ r1.data, c ≠ '\n')
    (hcontent : ∀ l ∈ content, ∀ c ∈ l, c ≠ '\n') :
    ∀ l ∈ frDocOf raw orig fwd r1 content, ∀ c ∈ l, c ≠ '\n' := by
  intro l hl
  unfold frDocOf at hl
  rcases List.mem_append.mp hl with h | h
  · exact frEnvLines_noNL raw orig fwd r1 horig hfwd hr1 l h
  rcases List.mem_cons.mp h with rfl | h2
  · exact dashdash_noNL _ (forwardBoundary_noNL r1 hr1)
  rcases List.mem_append.mp h2 with h3 | h3
  · exact hcontent l h3
  rcases List.mem_cons.mp h3 with rfl | h4
  · exact dashdash_noNL _ (forwardBoundary_noNL r1 hr1)
  rcases List.mem_append.mp h4 with h5 | h5
  · exact frRfcLines_noNL raw l h5
  · rcases List.mem_singleton.mp h5 with rfl
    exact noNL_append _ _ (dashdash_noNL _ (forwardBoundary_noNL r1 hr1)) (by decide)
theorem isDelimLine_false_head_cons (b : List Char) (c : Char) (r : List Char)
    (hc : c ≠ '-') : isDelimLine b (c :: r) = false :=
  isDelimLine_false_of_head b _ (by simp [hc])

theorem isDelimLine_false_head_app (b : List Char) (c : Char) (r x : List Char)
    (hc : c ≠ '-') : isDelimLine b ((c :: r) ++ x) = false :=
  isDelimLine_false_of_head b _ (by simp [hc])

theorem isDelimLine_self (b : List Char) : isDelimLine b (dashdash b) = true := by
  simp [isDelimLine]

theorem isDelimLine_term (b : List Char) :
    isDelimLine b (dashdash b ++ "--".data) = true := by
  simp [isDelimLine]

theorem frEnvLines_nodelim (raw : List Char) (orig fwd r1 : String) :
    ∀ l ∈ frEnvLines raw orig fwd r1, isDelimLine (forwardBoundaryOf r1) l = false := by
  intro l hl
  simp only [frEnvLines, List.mem_cons, List.not_mem_nil, or_false] at hl
  rcases hl with rfl | rfl | rfl | rfl | rfl | rfl | rfl
  · exact isDelimLine_false_head_app _ 'F' _ _ (by decide)
  · exact isDelimLine_false_head_app _ 'T' _ _ (by decide)
  · exact isDelimLine_false_head_app _ 'R' _ _ (by decide)
  · exact isDelimLine_false_head_app _ 'S' _ _ (by decide)
  · exact isDelimLine_false_head_app _ 'M' _ _ (by decide)
  · exact isDelimLine_false_head_app _ 'C' _ _ (by decide)
  · exact isDelimLine_false_head_cons _ '\r' _ (by decide)

theorem frPreludeLines_nodelim (raw : List Char) (orig now r1 : String) :
    ∀ l ∈ frPreludeLines raw orig now, isDelimLine (forwardBoundaryOf r1) l = false := by
  intro l hl
  simp only [frPreludeLines, List.mem_cons, List.not_mem_nil, or_false] at hl
  rcases hl with rfl | rfl | rfl | rfl | rfl | rfl | rfl | rfl | rfl
  · exact isDelimLine_false_head_cons _ 'C' _ (by decide)
  · exact isDelimLine_false_head_cons _ 'C' _ (by decide)
  · exact isDelimLine_false_of_head _ _ (by decide)
  · exact isDelimLine_false_of_take9 r1 _ (by decide)
  · exact isDelimLine_false_head_app _ 'F' _ _ (by decide)
  · exact isDelimLine_false_head_app _ 'D' _ _ (by decide)
  · exact isDelimLine_false_head_app _ 'S' _ _ (by decide)
  · exact isDelimLine_false_head_app _ 'T' _ _ (by decide)
  · exact isDelimLine_false_of_head _ _ (by decide)

theorem frTrailerLines_nodelim (r1 : String) :
    ∀ l ∈ frTrailerLines, isDelimLine (forwardBoundaryOf r1) l = false := by
  intro l hl
  simp only [frTrailerLines, List.mem_cons, List.not_mem_nil, or_false] at hl
  rcases hl with rfl | rfl | rfl
  · exact isDelimLine_false_of_head _ _ (by decide)
  · exact isDelimLine_false_head_cons _ 'N' _ (by decide)
  · exact isDelimLine_false_of_head _ _ (by decide)

theorem frContentPlain_nodelim (raw : List Char) (orig now r1 : String)
    (hpt : ∀ l ∈ splitNL (extractPreview raw).text,
      isDelimLine (forwardBoundaryOf r1) l = false) :
    ∀ l ∈ frContentPlain raw orig now, isDelimLine (forwardBoundaryOf r1) l = false := by
  intro l hl
  rcases List.mem_append.mp hl with h | h
  · rcases List.mem_append.mp h with h2 | h2
    · exact frPreludeLines_nodelim raw orig now r1 l h2
    · exact hpt l h2
  · exact frTrailerLines_nodelim r1 l h

theorem frHtmlMidLines_nodelim (raw : List Char) (orig now r2 r1 : String) :
    ∀ l ∈ frHtmlMidLines raw orig now r2, isDelimLine (forwardBoundaryOf r1) l = false := by
  intro l hl
  rcases List.mem_append.mp hl with h | h
  · exact frTrailerLines_nodelim r1 l h
  · simp only [List.mem_cons, List.not_mem_nil, or_false] at h
    rcases h with rfl | rfl | rfl | rfl | rfl | rfl | rfl | rfl | rfl | rfl | rfl | rfl
    · exact isDelimLine_false_of_take9 r1 _ (by rw [altDelim_take9]; decide)
    · exact isDelimLine_false_head_cons _ 'C' _ (by decide)
    · exact isDelimLine_false_head_cons _ 'C' _ (by decide)
    · exact isDelimLine_false_of_head _ _ (by decide)
    · exact isDelimLine_false_head_cons _ '<' _ (by decide)
    · exact isDelimLine_false_head_cons _ ' ' _ (by decide)
    · exact isDelimLine_false_head_app _ ' ' _ _ (by decide)
    · exact isDelimLine_false_head_app _ ' ' _ _ (by decide)
    · exact isDelimLine_false_head_app _ ' ' _ _ (by decide)
    · exact isDelimLine_false_head_app _ ' ' _ _ (by decide)
    · exact isDelimLine_false_head_cons _ '<' _ (by decide)
    · exact isDelimLine_false_of_head _ _ (by decide)

theorem frHtmlTailLines_nodelim (r2 r1 : String) :
    ∀ l ∈ frHtmlTailLines r2, isDelimLine (forwardBoundaryOf r1) l = false := by
  intro l hl
  simp only [frHtmlTailLines, List.mem_cons, List.not_mem_nil, or_false] at hl
  rcases hl with rfl | rfl | rfl | rfl | rfl | rfl | rfl
  · exact isDelimLine_false_of_head _ _ (by decide)
  · exact isDelimLine_false_head_cons _ '<' _ (by decide)
  · exact isDelimLine_false_head_cons _ ' ' _ (by decide)
  · exact isDelimLine_false_head_cons _ '<' _ (by decide)
  · exact isDelimLine_false_of_head _ _ (by decide)
  · exact isDelimLine_false_of_take9 r1 _ (by rw [altDelimEnd_take9]; decide)
  · exact isDelimLine_false_of_head _ _ (by decide)

theorem frContentHtml_nodelim (raw : List Char) (orig now r2 r1 : String)
    (hpt : ∀ l ∈ splitNL (extractPreview raw).text,
      isDelimLine (forwardBoundaryOf r1) l = false)
    (hph : ∀ l ∈ splitNL (extractPreview raw).html,
      isDelimLine (forwardBoundaryOf r1) l = false) :
    ∀ l ∈ frContentHtml raw orig now r2, isDelimLine (forwardBoundaryOf r1) l = false := by
  intro l hl
  rcases List.mem_cons.mp hl with rfl | hl2
  · exact isDelimLine_false_head_app _ 'C' _ _ (by decide)
  rcases List.mem_cons.mp hl2 with rfl | hl3
  · exact isDelimLine_false_of_head _ _ (by decide)
  rcases List.mem_cons.mp hl3 with rfl | hl4
  · exact isDelimLine_false_of_take9 r1 _ (by rw [altDelim_take9]; decide)
  rcases List.mem_append.mp hl4 with h | h
  · rcases List.mem_append.mp h with h | h
    · rcases List.mem_append.mp h with h | h
      · rcases List.mem_append.mp h with h | h
        · exact frPreludeLines_nodelim raw orig now r1 l h
        · exact hpt l h
      · exact frHtmlMidLines_nodelim raw orig now r2 r1 l h
    · exact hph l h
  · exact frHtmlTailLines_nodelim r2 r1 l h

theorem frRfcLines_nodelim (raw : List Char) (r1 : String)
    (hraw : ∀ l ∈ splitNL raw, isDelimLine (forwardBoundaryOf r1) l = false) :
    ∀ l ∈ frRfcLines raw, isDelimLine (forwardBoundaryOf r1) l = false := by
  intro l hl
  rcases List.mem_cons.mp hl with rfl | hl2
  · exact isDelimLine_false_head_cons _ 'C' _ (by decide)
  rcases List.mem_cons.mp hl2 with rfl | hl3
  · exact isDelimLine_false_head_cons _ 'C' _ (by decide)
  rcases List.mem_cons.mp hl3 with rfl | hl4
  · exact isDelimLine_false_of_head _ _ (by decide)
  rcases List.mem_append.mp hl4 with h | h
  · exact hraw l h
  · rcases List.mem_singleton.mp h with rfl
    exact isDelimLine_false_of_head _ _ (by decide)

theorem frDocOf_chunks (raw : List Char) (orig fwd r1 : String) (content : List (List Char))
    (hcontent : ∀ l ∈ content, isDelimLine (forwardBoundaryOf r1) l = false)
    (hraw : ∀ l ∈ splitNL raw, isDelimLine (forwardBoundaryOf r1) l = false) :
    chunksBy (isDelimLine (forwardBoundaryOf r1)) (frDocOf raw orig fwd r1 content) =
      [frEnvLines raw orig fwd r1, content, frRfcLines raw, []] := by
  unfold frDocOf
  rw [chunksBy_append_sep _ _ _ _ (frEnvLines_nodelim raw orig fwd r1) (isDelimLine_self _),
      chunksBy_append_sep _ _ _ _ hcontent (isDelimLine_self _),
      chunksBy_append_sep _ _ _ _ (frRfcLines_nodelim raw r1 hraw) (isDelimLine_term _)]
  rfl
theorem ne_rfc_of_lastCR (x : List Char) :
    x ++ "\r".data ≠ "Content-Type: message/rfc822".data := by
  intro h
  have h2 := congrArg List.getLast? h
  rw [List.getLast?_concat] at h2
  exact absurd h2 (by decide)

theorem frEnvLines_not_rfc (raw : List Char) (orig fwd r1 : String) :
    isRfcPartChunk (frEnvLines raw orig fwd r1) = false := by
  apply isRfc_false_of_not_mem
  intro h
  simp only [frEnvLines, List.mem_cons, List.not_mem_nil, or_false] at h
  rcases h with h | h | h | h | h | h | h
  · exact ne_rfc_of_lastCR _ h.symm
  · exact ne_rfc_of_lastCR _ h.symm
  · exact ne_rfc_of_lastCR _ h.symm
  · exact ne_rfc_of_lastCR _ h.symm
  · exact ne_rfc_of_lastCR _ h.symm
  · exact ne_rfc_of_lastCR _ h.symm
  · exact absurd h (by decide)

theorem chunkHeaderLines_cons_ne (x : List Char) (l : List (List Char)) (hx : x ≠ []) :
    chunkHeaderLines (x :: l) = x :: chunkHeaderLines l := by
  unfold chunkHeaderLines
  rw [List.takeWhile_cons, if_pos (decide_eq_true hx)]

theorem chunkHeaderLines_cons_nil (l : List (List Char)) :
    chunkHeaderLines ([] :: l) = [] := by
  unfold chunkHeaderLines
  rw [List.takeWhile_cons, if_neg (by decide)]

theorem frContentPlain_not_rfc (raw : List Char) (orig now : String) :
    isRfcPartChunk (frContentPlain raw orig now) = false := by
  have h : chunkHeaderLines (frContentPlain raw orig now) =
      ["Content-Type: text/plain; charset=UTF-8".data,
       "Content-Transfer-Encoding: 7bit".data] := by
    simp only [frContentPlain, frPreludeLines, List.cons_append]
    rw [chunkHeaderLines_cons_ne _ _ (by decide), chunkHeaderLines_cons_ne _ _ (by decide),
        chunkHeaderLines_cons_nil]
  unfold isRfcPartChunk
  rw [h]
  decide

theorem frContentHtml_not_rfc (raw : List Char) (orig now r2 : String) :
    isRfcPartChunk (frContentHtml raw orig now r2) = false := by
  have h : chunkHeaderLines (frContentHtml raw orig now r2) =
      ["Content-Type: multipart/alternative; boundary=\"".data ++ altBoundaryOf r2 ++
        "\"".data] := by
    have hx : ("Content-Type: multipart/alternative; boundary=\"".data ++
        altBoundaryOf r2 ++ "\"".data) ≠ [] := ne_nil_of_head _ 'C' rfl
    unfold frContentHtml
    rw [chunkHeaderLines_cons_ne _ _ hx, chunkHeaderLines_cons_nil]
  have h16 : List.take 16 ("Content-Type: multipart/alternative; boundary=\"".data ++
      altBoundaryOf r2 ++ "\"".data) = "Content-Type: mu".data := by
    rw [List.append_assoc, List.take_append_of_le_length (by decide)]
    decide
  have hne2 : ("Content-Type: message/rfc822".data : List Char) ≠
      "Content-Type: multipart/alternative; boundary=\"".data ++ altBoundaryOf r2 ++
        "\"".data := by
    intro hcon
    have h3 := congrArg (List.take 16) hcon
    rw [h16] at h3
    exact absurd h3 (by decide)
  unfold isRfcPartChunk
  rw [h]
  simp [List.contains, List.elem, beq_eq_false_iff_ne.mpr hne2]

theorem frRfcLines_is_rfc (raw : List Char) : isRfcPartChunk (frRfcLines raw) = true := by
  have h : chunkHeaderLines (frRfcLines raw) =
      ["Content-Type: message/rfc822".data,
       "Content-Disposition: attachment; filename=\"original_message.eml\"".data] := by
    unfold frRfcLines
    rw [chunkHeaderLines_cons_ne _ _ (by decide), chunkHeaderLines_cons_ne _ _ (by decide),
        chunkHeaderLines_cons_nil]
  unfold isRfcPartChunk
  rw [h]
  decide

theorem frRfcLines_payload (raw : List Char) : chunkPayload (frRfcLines raw) = raw := by
  unfold chunkPayload chunkPayloadLines frRfcLines
  rw [List.dropWhile_cons, if_pos (by decide), List.dropWhile_cons, if_pos (by decide),
      List.dropWhile_cons, if_neg (by decide)]
  show joinNL (List.dropLast (splitNL raw ++ [[]])) = raw
  rw [List.dropLast_concat]
  exact joinNL_splitNL raw

theorem filter_rfc_eval (A B C : List (List Char)) (hA : isRfcPartChunk A = false)
    (hB : isRfcPartChunk B = false) (hC : isRfcPartChunk C = true) :
    (([A, B, C, []] : List (List (List Char))).filter isRfcPartChunk).map chunkPayload =
      [chunkPayload C] := by
  have h0 : isRfcPartChunk ([] : List (List Char)) = false := rfl
  simp [List.filter_cons, hA, hB, hC, h0]
theorem isPrefixOf_false_of_head (a : Char) (as l : List Char) (h : l.head? ≠ some a) :
    (a :: as).isPrefixOf l = false := by
  cases l with
  | nil => rfl
  | cons b t =>
    have hba : b ≠ a := fun he => h (by simp [he])
    have hab : (a == b) = false := beq_eq_false_iff_ne.mpr (fun he => hba he.symm)
    simp [List.isPrefixOf, hab]

theorem isPrefixOf_false_head_app (a c : Char) (r x as : List Char) (hne : c ≠ a) :
    (a :: as).isPrefixOf ((c :: r) ++ x) = false :=
  isPrefixOf_false_of_head a as _ (by simp [hne])

theorem isPrefixOf_append_self (p t : List Char) : p.isPrefixOf (p ++ t) = true := by
  induction p with
  | nil => simp [List.isPrefixOf]
  | cons a as ih => simp [List.isPrefixOf, ih]

theorem append7 {α : Type} (a b c d e f g : α) (rest : List α) :
    ([a, b, c, d, e, f, g] : List α) ++ rest = a :: b :: c :: d :: e :: f :: g :: rest :=
  rfl

theorem findSome?_skip4 {α β : Type} (f : α → Option β) (a1 a2 a3 a4 : α) (l : List α)
    (b : β) (h1 : f a1 = none) (h2 : f a2 = none) (h3 : f a3 = none)
    (h4 : f a4 = some b) :
    List.findSome? f (a1 :: a2 :: a3 :: a4 :: l) = some b := by
  simp only [List.findSome?_cons, h1, h2, h3, h4]

theorem frEnvDoc_subject (raw : List Char) (orig fwd r1 : String)
    (rest : List (List Char)) :
    List.findSome? (fun l => if "Subject: ".data.isPrefixOf l then
        some (String.mk (stripTrailingCR (l.drop "Subject: ".data.length)))
      else none) (frEnvLines raw orig fwd r1 ++ rest) =
      some ("Fwd: " ++ String.mk (originalSubjectOf raw)) := by
  have hp1 : "Subject: ".data.isPrefixOf ("From: ".data ++ orig.data ++ "\r".data) =
      false := isPrefixOf_false_head_app 'S' 'F' _ _ _ (by decide)
  have hp2 : "Subject: ".data.isPrefixOf ("To: ".data ++ fwd.data ++ "\r".data) =
      false := isPrefixOf_false_head_app 'S' 'T' _ _ _ (by decide)
  have hp3 : "Subject: ".data.isPrefixOf
      ("Reply-To: ".data ++ replyToOf raw ++ "\r".data) = false :=
    isPrefixOf_false_head_app 'S' 'R' _ _ _ (by decide)
  have hL4 : ("Subject: Fwd: ".data ++ originalSubjectOf raw ++ "\r".data) =
      "Subject: ".data ++ ("Fwd: ".data ++ originalSubjectOf raw ++ "\r".data) := rfl
  rw [frEnvLines, append7]
  refine findSome?_skip4 _ _ _ _ _ _ _ ?_ ?_ ?_ ?_
  · exact if_neg (by simp [hp1])
  · exact if_neg (by simp [hp2])
  · exact if_neg (by simp [hp3])
  · rw [hL4, if_pos (isPrefixOf_append_self _ _), List.drop_left]
    unfold stripTrailingCR
    rw [List.getLast?_concat, if_pos rfl, List.dropLast_concat]
    rfl
theorem formatRaw_embedding_plain (raw orig fwd r1 r2 now : String)
    (hhas : (extractPreview raw.data).html = [])
    (horig : ∀ c ∈ orig.data, c ≠ '\n') (hfwd : ∀ c ∈ fwd.data, c ≠ '\n')
    (hnow : ∀ c ∈ now.data, c ≠ '\n' ∧ c ≠ '\r')
    (hr1 : ∀ c ∈ r1.data, c ≠ '\n')
    (hraw : ∀ l ∈ splitNL raw.data, isDelimLine (forwardBoundaryOf r1) l = false)
    (hpt : ∀ l ∈ splitNL (extractPreview raw.data).text,
      isDelimLine (forwardBoundaryOf r1) l = false) :
    ((mimeChunksOf (formatRawForwardedEmail raw orig fwd r1 r2 now)
        (forwardBoundaryOf r1)).filter isRfcPartChunk).map chunkPayload = [raw.data] ∧
    getHeaderLineValue "Subject: ".data (formatRawForwardedEmail raw orig fwd r1 r2 now) =
      some ("Fwd: " ++ String.mk (originalSubjectOf raw.data)) := by
  have hout := formatRaw_data_plain raw orig fwd r1 r2 now hhas
  have hnn : ∀ l ∈ frDocOf raw.data orig fwd r1 (frContentPlain raw.data orig now),
      ∀ c ∈ l, c ≠ '\n' :=
    frDocOf_noNL raw.data orig fwd r1 _ horig hfwd hr1
      (frContentPlain_noNL raw.data orig now horig hnow)
  have hne : frDocOf raw.data orig fwd r1 (frContentPlain raw.data orig now) ≠ [] := by
    unfold frDocOf frEnvLines
    simp
  have hsplit : splitNL (formatRawForwardedEmail raw orig fwd r1 r2 now).data =
      frDocOf raw.data orig fwd r1 (frContentPlain raw.data orig now) := by
    rw [hout]
    exact splitNL_joinNL _ hnn hne
  constructor
  · unfold mimeChunksOf
    rw [hsplit, frDocOf_chunks raw.data orig fwd r1 _
        (frContentPlain_nodelim raw.data orig now r1 hpt) hraw,
      filter_rfc_eval _ _ _ (frEnvLines_not_rfc raw.data orig fwd r1)
        (frContentPlain_not_rfc raw.data orig now) (frRfcLines_is_rfc raw.data),
      frRfcLines_payload]
  · unfold getHeaderLineValue
    rw [hsplit]
    unfold frDocOf
    exact frEnvDoc_subject raw.data orig fwd r1 _

theorem formatRaw_embedding_html (raw orig fwd r1 r2 now : String)
    (hhas : (extractPreview raw.data).html ≠ [])
    (horig : ∀ c ∈ orig.data, c ≠ '\n') (hfwd : ∀ c ∈ fwd.data, c ≠ '\n')
    (hnow : ∀ c ∈ now.data, c ≠ '\n' ∧ c ≠ '\r')
    (hr1 : ∀ c ∈ r1.data, c ≠ '\n') (hr2 : ∀ c ∈ r2.data, c ≠ '\n')
    (hraw : ∀ l ∈ splitNL raw.data, isDelimLine (forwardBoundaryOf r1) l = false)
    (hpt : ∀ l ∈ splitNL (extractPreview raw.data).text,
      isDelimLine (forwardBoundaryOf r1) l = false)
    (hph : ∀ l ∈ splitNL (extractPreview raw.data).html,
      isDelimLine (forwardBoundaryOf r1) l = false) :
    ((mimeChunksOf (formatRawForwardedEmail raw orig fwd r1 r2 now)
        (forwardBoundaryOf r1)).filter isRfcPartChunk).map chunkPayload = [raw.data] ∧
    getHeaderLineValue "Subject: ".data (formatRawForwardedEmail raw orig fwd r1 r2 now) =
      some ("Fwd: " ++ String.mk (originalSubjectOf raw.data)) := by
  have hout := formatRaw_data_html raw orig fwd r1 r2 now hhas
  have hnn : ∀ l ∈ frDocOf raw.data orig fwd r1 (frContentHtml raw.data orig now r2),
      ∀ c ∈ l, c ≠ '\n' :=
    frDocOf_noNL raw.data orig fwd r1 _ horig hfwd hr1
      (frContentHtml_noNL raw.data orig now r2 horig hnow hr2)
  have hne : frDocOf raw.data orig fwd r1 (frContentHtml raw.data orig now r2) ≠ [] := by
    unfold frDocOf frEnvLines
    simp
  have hsplit : splitNL (formatRawForwardedEmail raw orig fwd r1 r2 now).data =
      frDocOf raw.data orig fwd r1 (frContentHtml raw.data orig now r2) := by
    rw [hout]
    exact splitNL_joinNL _ hnn hne
  constructor
  · unfold mimeChunksOf
    rw [hsplit, frDocOf_chunks raw.data orig fwd r1 _
        (frContentHtml_nodelim raw.data orig now r2 r1 hpt hph) hraw,
      filter_rfc_eval _ _ _ (frEnvLines_not_rfc raw.data orig fwd r1)
        (frContentHtml_not_rfc raw.data orig now r2) (frRfcLines_is_rfc raw.data),
      frRfcLines_payload]
  · unfold getHeaderLineValue
    rw [hsplit]
    unfold frDocOf
    exact frEnvDoc_subject raw.data orig fwd r1 _

/-- C1: the builder output embeds the original raw message as the payload of
its unique `message/rfc822` part byte-for-byte, provided the lines of the
original and of the extracted previews never themselves form a generated
boundary delimiter line (and the environment strings are newline-free); and
the output Subject header is `Fwd: ` followed by the regex-extracted subject
of the raw input (the first `Subject:`-shaped line anywhere in the raw text),
not the parsed header's value. -/
theorem formatRawForwardedEmail_rfc822_embedding (raw orig fwd r1 r2 now : String)
    (horig : ∀ c ∈ orig.data, c ≠ '\n') (hfwd : ∀ c ∈ fwd.data, c ≠ '\n')
    (hnow : ∀ c ∈ now.data, c ≠ '\n' ∧ c ≠ '\r')
    (hr1 : ∀ c ∈ r1.data, c ≠ '\n') (hr2 : ∀ c ∈ r2.data, c ≠ '\n')
    (hraw : ∀ l ∈ splitNL raw.data, isDelimLine (forwardBoundaryOf r1) l = false)
    (hpt : ∀ l ∈ splitNL (extractPreview raw.data).text,
      isDelimLine (forwardBoundaryOf r1) l = false)
    (hph : ∀ l ∈ splitNL (extractPreview raw.data).html,
      isDelimLine (forwardBoundaryOf r1) l = false) :
    ((mimeChunksOf (formatRawForwardedEmail raw orig fwd r1 r2 now)
        (forwardBoundaryOf r1)).filter isRfcPartChunk).map chunkPayload = [raw.data] ∧
    getHeaderLineValue "Subject: ".data (formatRawForwardedEmail raw orig fwd r1 r2 now) =
      some ("Fwd: " ++ String.mk (originalSubjectOf raw.data)) := by
  by_cases hhas : (extractPreview raw.data).html = []
  · exact formatRaw_embedding_plain raw orig fwd r1 r2 now hhas horig hfwd hnow hr1 hraw hpt
  · exact formatRaw_embedding_html raw orig fwd r1 r2 now hhas horig hfwd hnow hr1 hr2
      hraw hpt hph
set_option maxRecDepth 8000 in
/-- Witness for the amended C1 theorem at a concrete email: every hypothesis
is discharged by evaluation. -/
theorem formatRawForwardedEmail_rfc822_embedding_witness :
    ((mimeChunksOf (formatRawForwardedEmail "From: a@b.c\r\nSubject: greetings\r\n\r\nhello there"
        "alice@orig.example" "dest@fwd.example" "R1R" "R2R" "Mon, 01 Jan 2024 00:00:00 GMT")
        (forwardBoundaryOf "R1R")).filter isRfcPartChunk).map chunkPayload =
      ["From: a@b.c\r\nSubject: greetings\r\n\r\nhello there".data] ∧
    getHeaderLineValue "Subject: ".data
      (formatRawForwardedEmail "From: a@b.c\r\nSubject: greetings\r\n\r\nhello there"
        "alice@orig.example" "dest@fwd.example" "R1R" "R2R" "Mon, 01 Jan 2024 00:00:00 GMT") =
      some ("Fwd: " ++ String.mk
        (originalSubjectOf "From: a@b.c\r\nSubject: greetings\r\n\r\nhello there".data)) :=
  formatRawForwardedEmail_rfc822_embedding
    "From: a@b.c\r\nSubject: greetings\r\n\r\nhello there"
    "alice@orig.example" "dest@fwd.example" "R1R" "R2R" "Mon, 01 Jan 2024 00:00:00 GMT"
    (by decide) (by decide) (by decide) (by decide) (by decide) (by decide) (by decide)
    (by decide)

end SESFwd
